import Mathlib

/-!
# The Civic Graph — federation core, shallow embedding

This file embeds the federation subsystem of the repository in Lean 4 and
proves the frozen specification claims about it:

* `ActivityPubService.sign_activity` / `verify_signature`
  (fastapi/app/federation/activitypub.py),
* `InboxHandler` routing and side effects (backend/app/federation/inbox.py),
* `OutboxHandler` delivery retry logic (backend/scripts/write_outbox.py,
  which writes app/federation/outbox.py verbatim),
* `IdentityService.verify_move_activity` (backend/app/services/identity.py),
* configuration constants (backend/app/config.py).

External cryptographic primitives (SHA-256, base64, RSA-PKCS1v15 of the
`cryptography` library) are not part of the repository; they are modelled
symbolically by injective executable codecs, as documented at each
definition.  Everything else is translated directly from the Python source.
-/

namespace TCG

/-! ## Injective digit codec

Modelled from the spec: base64 encoding/decoding of byte strings
(`base64.b64encode` / `base64.b64decode` in the source) is an injective
printable encoding with a validating decoder.  We model it by a decimal
digit codec on `Nat`: `natToDigitStr` plays the role of the encoder and
`digitStrToNat` of the decoder (returning `none` where `b64decode` would
raise `binascii.Error`).  The encoded alphabet is `'0'-'9'`, which like
real base64 output contains no comma, quote, whitespace or newline — the
characters that matter to the signature-header syntax. -/

def digitChar (d : Nat) : Char := Char.ofNat (48 + d)

def digitVal (c : Char) : Option Nat :=
  if 48 ≤ c.toNat ∧ c.toNat ≤ 57 then some (c.toNat - 48) else none

/-- Little-endian decimal digits of `n`, with explicit fuel so that the
recursion is structural (kernel-reducible). -/
def natToDigitsAux : Nat → Nat → List Char
  | 0, _ => []
  | _ + 1, 0 => []
  | fuel + 1, n + 1 => digitChar ((n + 1) % 10) :: natToDigitsAux fuel ((n + 1) / 10)

def natToDigitStr (n : Nat) : String :=
  if n = 0 then "0" else String.mk (natToDigitsAux n n)

def digitsToNat : List Char → Option Nat
  | [] => some 0
  | c :: cs =>
    match digitVal c, digitsToNat cs with
    | some d, some v => some (d + 10 * v)
    | _, _ => none

def digitStrToNat (s : String) : Option Nat :=
  match s.data with
  | [] => none
  | c :: cs => digitsToNat (c :: cs)

/-! ## Injective string-to-Nat encoding

Modelled from the spec: the SHA-256 digest (`hashlib.sha256(...).digest()`)
binds the exact bytes of its input; we idealize it as the injective
positional encoding `strEncode` (base `1114113 > ` every Unicode scalar
value `+ 1`). -/

def charBase : Nat := 1114113

def strEncode : List Char → Nat
  | [] => 0
  | c :: cs => (c.toNat + 1) + charBase * strEncode cs

/-! ## Symbolic RSA-PKCS1v15 signature scheme

Modelled from the spec: `sign` with the actor's private key
(RSA-SHA256/PKCS1v15 of the `cryptography` library) and `verify` with the
matching public key.  A keypair is identified by a single `Nat`; the
"PEM serialization" of a key is its digit encoding, and
`load_pem_private_key` / `load_pem_public_key` are the validating decoder
(`none` models the `ValueError` raised on an unloadable key).  A signature
binds the key and the exact signed message (`Nat.pair` with the injective
message encoding), so verification succeeds exactly for the matching key
and unchanged message. -/

def rsaSign (key : Nat) (message : String) : Nat :=
  Nat.pair key (strEncode message.data)

def rsaVerify (key : Nat) (message : String) (signature : Nat) : Bool :=
  signature == rsaSign key message

def loadPemKey (pem : String) : Option Nat := digitStrToNat pem

def pemOfKey (k : Nat) : String := natToDigitStr k

/-- Modelled from the spec: the base64 of the SHA-256 digest of a byte
string, as computed by `sign_activity` (`hashlib.sha256` then
`base64.b64encode`).  Injective because both stages are. -/
def shaB64 (s : String) : String := natToDigitStr (strEncode s.data)

/-! ## Character-list implementations of the Python string operations

`verify_signature` manipulates the header with `str.split(",")`,
`str.split("=", 1)`, `str.strip('""')`, `str.strip()` and `str.split()`.
These are embedded on `List Char` with the exact Python semantics. -/

/-- Python `s.split(sep)` for a one-character separator: splits at every
occurrence, keeping empty segments (`"".split(",") == [""]`). -/
def splitOnCharAux (sep : Char) : List Char → List Char → List (List Char)
  | [], acc => [acc.reverse]
  | x :: xs, acc =>
    if x = sep then acc.reverse :: splitOnCharAux sep xs []
    else splitOnCharAux sep xs (x :: acc)

def splitOnChar (sep : Char) (l : List Char) : List (List Char) :=
  splitOnCharAux sep l []

/-- Python `s.split(sep, 1)` for a one-character separator, as the pair
around the first occurrence; `none` when the separator is absent (where
the source's tuple unpacking `key, value = part.split("=", 1)` raises
`ValueError`). -/
def splitFirstChar (sep : Char) : List Char → Option (List Char × List Char)
  | [] => none
  | x :: xs =>
    if x = sep then some ([], xs)
    else (splitFirstChar sep xs).map (fun p => (x :: p.1, p.2))

/-- Python `s.strip(chars)` for a single strip character: removes every
leading and trailing occurrence. -/
def stripChar (c : Char) (l : List Char) : List Char :=
  ((l.dropWhile (· = c)).reverse.dropWhile (· = c)).reverse

/-- Python `s.strip()`: removes leading and trailing whitespace. -/
def stripWs (l : List Char) : List Char :=
  ((l.dropWhile Char.isWhitespace).reverse.dropWhile Char.isWhitespace).reverse

/-- Python `s.split()` with no argument: splits on runs of whitespace and
drops empty fields. -/
def wordsWs (l : List Char) : List (List Char) :=
  (splitOnCharAux ' ' l []).filter (· ≠ [])

/-! ## ActivityCodec — `ActivityPubService.sign_activity` / `verify_signature`
(src/fastapi/app/federation/activitypub.py, lines 219-356) -/

/-- A JSON activity envelope, modelled as a finite map from field names to
(serialized) field values; nesting is flattened into the serialized value
strings, which is all the signing path observes. -/
def Envelope := List (String × String)

/-- Embeds `json.dumps(activity, sort_keys=True)`: a deterministic byte form with
stable (sorted) field ordering. -/
def canonicalJson (env : Envelope) : String :=
  let sorted := env.insertionSort (fun a b => a.1 ≤ b.1)
  let fields := sorted.map (fun p => "\x22" ++ p.1 ++ "\x22: \x22" ++ p.2 ++ "\x22")
  "\x7b" ++ String.intercalate ", " fields ++ "\x7d"

/-- Python `"\n".join(parts)`. -/
def joinNl : List String → String
  | [] => ""
  | [x] => x
  | x :: xs => x ++ "\n" ++ joinNl xs

/-- The signing string of `sign_activity`:
`(request-target): post /inbox\nhost: {host}\ndate: {date}\ndigest: SHA-256={digest}`. -/
def signingString (host date digestB64 : String) : String :=
  joinNl ["(request-target): post /inbox", "host: " ++ host, "date: " ++ date,
    "digest: SHA-256=" ++ digestB64]

/-- Embeds `ActivityPubService.sign_activity`.  The ambient host
(`urlparse(self.instance_url).netloc`) and the `Date` header value
(`datetime.utcnow()`) are lifted to explicit parameters; an unloadable
private key makes the Python function raise, modelled by `Except.error`. -/
def sign_activity (activity : Envelope) (privateKeyPem keyId host date : String) :
    Except String String :=
  let activityJson := canonicalJson activity
  let digestB64 := shaB64 activityJson
  match loadPemKey privateKeyPem with
  | none => Except.error "could not load private key"
  | some key =>
    let signature := rsaSign key (signingString host date digestB64)
    let signatureB64 := natToDigitStr signature
    Except.ok ("keyId=\x22" ++ keyId ++
      "\x22,algorithm=\x22rsa-sha256\x22,headers=\x22(request-target) host date digest\x22,signature=\x22"
      ++ signatureB64 ++ "\x22")

/-- The header-parsing loop of `verify_signature`: split the header on
commas, split each part at the first equals sign (`none` models the
`ValueError` of the tuple unpacking when a part has no equals sign, caught
by the outer `except` of the source), strip whitespace around keys and
quote characters around values. -/
def parseSigParts (header : String) : Option (List (String × String)) :=
  go (splitOnChar ',' header.data)
where
  go : List (List Char) → Option (List (String × String))
    | [] => some []
    | p :: ps =>
      match splitFirstChar '=' p with
      | none => none
      | some (k, v) =>
        (go ps).map (fun rest =>
          (String.mk (stripWs k), String.mk (stripChar '\x22' v)) :: rest)

/-- Python-dict lookup over the parsed parts: the last binding of a key
wins, as in the source's `sig_parts[key] = value` loop. -/
def lookupLast (parts : List (String × String)) (k : String) : Option String :=
  (parts.reverse.find? (fun p => p.1 == k)).map Prod.snd

/-- The signing-string reconstruction loop of `verify_signature`: only the
four known pseudo-header names contribute, in the order given by the
header's own `headers` field; unknown names are skipped. -/
def reconstructSigningString (hdrs : List String)
    (requestTarget host date digest : String) : String :=
  joinNl (hdrs.filterMap (fun h =>
    if h = "(request-target)" then some ("(request-target): " ++ requestTarget)
    else if h = "host" then some ("host: " ++ host)
    else if h = "date" then some ("date: " ++ date)
    else if h = "digest" then some ("digest: " ++ digest)
    else none))

/-- Embeds `ActivityPubService.verify_signature`.  Every failure path of the
source (parse error, missing or empty `signature` field, undecodable
base64, unloadable public key, cryptographic mismatch) returns `false`
through the outer `try/except`. -/
def verify_signature (signatureHeader requestTarget host date digest publicKeyPem :
    String) : Bool :=
  match parseSigParts signatureHeader with
  | none => false
  | some sigParts =>
    match lookupLast sigParts "signature" with
    | none => false
    | some signatureB64 =>
      if signatureB64 = "" then false
      else
        match digitStrToNat signatureB64 with
        | none => false
        | some signature =>
          let hdrs := (wordsWs (((lookupLast sigParts "headers").getD "").data)).map
            String.mk
          let ss := reconstructSigningString hdrs requestTarget host date digest
          match loadPemKey publicKeyPem with
          | none => false
          | some publicKey => rsaVerify publicKey ss signature

/-! ## Data model — src/backend/app/models.py

Only the columns the federation core reads or writes are modelled.  The
`Float` column `engagement_score` is interpreted over exact rationals, as
claim C7 prescribes. -/

/-- Embeds `VideoPost` (models.py line 51): `activitypub_id` is `unique=True`. -/
structure VideoRec where
  apId : String
  likeCount : Nat
  commentCount : Nat
  shareCount : Nat
  viewCount : Nat
  engagementScore : ℚ
  deriving DecidableEq

/-- Embeds `Activity` (models.py line 109): `activity_id` is
`unique=True, nullable=False`. -/
structure ActivityRec where
  activityId : String
  activityType : String
  actor : String
  objectId : String
  objectType : String
  isLocal : Bool
  deriving DecidableEq

/-- Embeds `Comment` (models.py line 212): `activitypub_id` is `unique=True`. -/
structure CommentRec where
  apId : String
  videoApId : String
  deriving DecidableEq

/-- Embeds `Follower` (models.py line 232). -/
structure FollowerRec where
  userId : Nat
  followerActor : String
  followerInbox : String
  deriving DecidableEq

/-- The relational store observed by the inbound pipeline. -/
structure DB where
  videos : List VideoRec
  activities : List ActivityRec
  comments : List CommentRec
  followers : List FollowerRec
  deriving DecidableEq

/-! ## Incoming activities -/

/-- An embedded activity object (the `object` dict of a `Create`): the
fields the inbound pipeline reads.  `Option` fields model absent JSON
keys. -/
structure APObject where
  id : String
  objType : String
  duration : Option String
  url : String
  inReplyTo : Option String
  deriving DecidableEq

/-- The `object` field of an incoming activity: a bare id string or an
embedded object, distinguished by the source's
`isinstance(object_id, dict)` check. -/
inductive ObjField where
  | str (s : String)
  | obj (o : APObject)
  deriving DecidableEq

/-- The id extraction `object_id.get("id") if isinstance(object_id, dict)
else object_id` used by the Like/Announce/Delete handlers. -/
def ObjField.idOf : ObjField → String
  | .str s => s
  | .obj o => o.id

/-- An incoming (already signature-verified and schema-validated) activity. -/
structure InActivity where
  id : String
  activityType : String
  actor : String
  obj : ObjField
  target : Option String
  deriving DecidableEq

/-- An HTTP-style response dict `{"status": ..., "message": ...}`. -/
structure Response where
  status : Nat
  message : String
  deriving DecidableEq

/-! ## `ActivityPubService.store_activity`
(src/fastapi/app/federation/activitypub.py, lines 444-480)

The source computes `activity.get("object", {}).get("id", "")`: when the
`object` field is a bare string, `.get` raises `AttributeError`, the
`except` branch rolls the transaction back and returns `None`, so no
record is stored.  When the insert violates the unique constraint on
`activity_id` the commit raises, with the same rollback-and-`None`
outcome. -/

/-- Embeds `db.query(Activity).filter(Activity.activity_id == ...).first()`
made boolean: is an activity with this id on record? -/
def activityExistsIn (activities : List ActivityRec) (aid : String) : Bool :=
  activities.any (fun a => a.activityId == aid)

/-- The `Activity` row `store_activity` builds from an embedded-object
activity. -/
def storeRec (act : InActivity) (o : APObject) (isLocal : Bool) : ActivityRec :=
  { activityId := act.id, activityType := act.activityType, actor := act.actor,
    objectId := o.id, objectType := o.objType, isLocal := isLocal }

def store_activity (db : DB) (act : InActivity) (isLocal : Bool) :
    Option ActivityRec × DB :=
  match act.obj with
  | .str _ => (none, db)
  | .obj o =>
    let record := storeRec act o isLocal
    if activityExistsIn db.activities act.id then (none, db)
    else (some record, { db with activities := db.activities ++ [record] })

/-! ## `InboxHandler` — src/backend/app/federation/inbox.py -/

/-- Embeds `InboxHandler._parse_duration` (lines 740-766).  `int(...)` is Python's
integer conversion: it strips surrounding whitespace, accepts an optional
sign, and allows single underscores between ASCII digits; anything else
raises `ValueError`, caught and turned into `None`. -/
def pyInt (s : String) : Option Int :=
  let t := stripWs s.data
  let core :=
    match t with
    | '+' :: rest => (1, rest)
    | '-' :: rest => (-1, rest)
    | rest => (1, rest)
  match core with
  | (sign, ds) =>
    if ds = [] then none
    else if digitsOk ds then
      some (sign * Int.ofNat (decVal ds))
    else none
where
  /-- digits with single underscores strictly between digits -/
  digitsOk : List Char → Bool
    | [] => true
    | [c] => c.isDigit
    | c :: '_' :: rest =>
      c.isDigit && (match rest with
        | d :: _ => d.isDigit && digitsOk rest
        | [] => false)
    | c :: rest => c.isDigit && digitsOk rest
  decVal : List Char → Nat
    | [] => 0
    | '_' :: rest => decVal rest
    | c :: rest => decValAux (c.toNat - 48) rest
  decValAux : Nat → List Char → Nat
    | acc, [] => acc
    | acc, '_' :: rest => decValAux acc rest
    | acc, c :: rest => decValAux (acc * 10 + (c.toNat - 48)) rest

def parse_duration (durationStr : String) : Option Int :=
  match durationStr.data with
  | [] => none
  | l =>
    if l.take 2 = ['P', 'T'] then
      let rest := l.drop 2
      if rest.getLast? = some 'S' then pyInt (String.mk rest.dropLast)
      else none
    else none

/-- Python truthiness of the parsed duration combined with the limit test
`if duration and duration > 180`. -/
def durationExceeds (d : Option Int) (limit : Int) : Bool :=
  match d with
  | none => false
  | some v => (v != 0) && (v > limit)

def findVideo (db : DB) (apId : String) : Option VideoRec :=
  db.videos.find? (fun v => v.apId == apId)

def updateVideo (db : DB) (apId : String) (f : VideoRec → VideoRec) : DB :=
  { db with videos := db.videos.map (fun v => if v.apId == apId then f v else v) }

def activityExists (db : DB) (activityId : String) : Bool :=
  activityExistsIn db.activities activityId

/-- Embeds `engagement = 2·likes + 3·comments + 4·shares + 0.1·views`, the update
written by the Like and Announce handlers, over exact rationals. -/
def engagementScoreOf (likes comments shares views : Nat) : ℚ :=
  (likes : ℚ) * 2 + (comments : ℚ) * 3 + (shares : ℚ) * 4 + (views : ℚ) * (1 / 10)

/-- Embeds `InboxHandler.process_like_activity` (lines 334-392). -/
def process_like_activity (db : DB) (act : InActivity) : Response × DB :=
  let objectId := act.obj.idOf
  match findVideo db objectId with
  | none => ({ status := 404, message := "Video not found" }, db)
  | some _ =>
    if activityExists db act.id then
      ({ status := 200, message := "Like already processed" }, db)
    else
      let db1 := updateVideo db objectId (fun v =>
        let v1 := { v with likeCount := v.likeCount + 1 }
        { v1 with engagementScore :=
            engagementScoreOf v1.likeCount v1.commentCount v1.shareCount v1.viewCount })
      ({ status := 200, message := "Like processed" }, db1)

/-- Embeds `InboxHandler.process_announce_activity` (lines 394-452). -/
def process_announce_activity (db : DB) (act : InActivity) : Response × DB :=
  let objectId := act.obj.idOf
  match findVideo db objectId with
  | none => ({ status := 404, message := "Video not found" }, db)
  | some _ =>
    if activityExists db act.id then
      ({ status := 200, message := "Announce already processed" }, db)
    else
      let db1 := updateVideo db objectId (fun v =>
        let v1 := { v with shareCount := v.shareCount + 1 }
        { v1 with engagementScore :=
            engagementScoreOf v1.likeCount v1.commentCount v1.shareCount v1.viewCount })
      ({ status := 200, message := "Announce processed" }, db1)

/-- Embeds `InboxHandler.process_delete_activity` (lines 454-514): media/vector
cleanup is external; the database effect is removal of the record. -/
def process_delete_activity (db : DB) (act : InActivity) : Response × DB :=
  let objectId := act.obj.idOf
  match findVideo db objectId with
  | none => ({ status := 404, message := "Video not found" }, db)
  | some _ =>
    ({ status := 200, message := "Video deleted" },
     { db with videos := db.videos.filter (fun v => !(v.apId == objectId)) })

/-- Embeds `InboxHandler.process_move_activity` (lines 516-560): `if not target`
is Python falsiness, so an absent or empty target is rejected; otherwise
every matching follower row is rewritten. -/
def process_move_activity (db : DB) (act : InActivity) : Response × DB :=
  let target := act.target.getD ""
  if target = "" then ({ status := 400, message := "Missing target" }, db)
  else
    ({ status := 200, message := "Move processed" },
     { db with followers := db.followers.map (fun f =>
        if f.followerActor == act.actor then { f with followerActor := target } else f) })

/-- Embeds `InboxHandler._process_federated_comment` (lines 266-331). -/
def process_federated_comment (db : DB) (o : APObject) : Response × DB :=
  let inReplyTo := o.inReplyTo.getD ""
  if inReplyTo = "" then
    ({ status := 400, message := "Note must be in reply to a video" }, db)
  else
    match findVideo db inReplyTo with
    | none => ({ status := 404, message := "Video not found" }, db)
    | some _ =>
      if db.comments.any (fun c => c.apId == o.id) then
        ({ status := 200, message := "Comment already processed" }, db)
      else
        ({ status := 200, message := "Comment processed" },
         let db1 := { db with comments := db.comments ++ [{ apId := o.id, videoApId := inReplyTo }] }
         updateVideo db1 inReplyTo (fun v => { v with commentCount := v.commentCount + 1 }))

/-- Embeds `InboxHandler._process_federated_video` (lines 164-264).  The media
download is an external effect, supplied as the `downloadResult`
parameter; the boolean output records whether the download was started. -/
def process_federated_video (db : DB) (o : APObject)
    (downloadResult : Except String String) : Response × DB × Bool :=
  match findVideo db o.id with
  | some _ => ({ status := 200, message := "Video already processed" }, db, false)
  | none =>
    let duration := parse_duration (o.duration.getD "")
    if durationExceeds duration 180 then
      ({ status := 400, message := "Duration exceeds limit" }, db, false)
    else
      match downloadResult with
      | Except.error _ => ({ status := 500, message := "Failed to download video" }, db, true)
      | Except.ok _ =>
        ({ status := 202, message := "Video accepted for processing" },
         { db with videos := db.videos ++
            [{ apId := o.id, likeCount := 0, commentCount := 0, shareCount := 0,
               viewCount := 0, engagementScore := 0 }] }, true)

/-- Embeds `InboxHandler.process_create_activity` (lines 128-162): `obj.get` on a
bare-string object raises `AttributeError`, caught and answered with 500. -/
def process_create_activity (db : DB) (act : InActivity)
    (downloadResult : Except String String) : Response × DB × Bool :=
  match act.obj with
  | .str _ => ({ status := 500, message := "Failed to process Create activity" }, db, false)
  | .obj o =>
    if o.objType = "Video" then process_federated_video db o downloadResult
    else if o.objType = "Note" then
      let r := process_federated_comment db o
      (r.1, r.2, false)
    else ({ status := 400, message := "Unsupported object type" }, db, false)

/-- Embeds `InboxHandler.handle_activity` (lines 37-125), from the routing step
on: supported kinds are dispatched and the activity is then persisted for
the audit trail (`store_activity(..., is_local=False)`); an unsupported
kind returns 400 before the store.  The boolean output records whether a
media download was started. -/
def handle_activity (db : DB) (act : InActivity)
    (downloadResult : Except String String) : Response × DB × Bool :=
  if act.activityType = "Create" ∨ act.activityType = "Like" ∨
      act.activityType = "Announce" ∨ act.activityType = "Delete" ∨
      act.activityType = "Move" then
    let step : Response × DB × Bool :=
      if act.activityType = "Create" then process_create_activity db act downloadResult
      else if act.activityType = "Like" then
        let r := process_like_activity db act
        (r.1, r.2, false)
      else if act.activityType = "Announce" then
        let r := process_announce_activity db act
        (r.1, r.2, false)
      else if act.activityType = "Delete" then
        let r := process_delete_activity db act
        (r.1, r.2, false)
      else
        let r := process_move_activity db act
        (r.1, r.2, false)
    (step.1, (store_activity step.2.1 act false).2, step.2.2)
  else
    ({ status := 400, message := "Unsupported activity type" }, db, false)

/-! ## `InboxHandler.download_federated_video` (lines 563-630)

The streaming download is modelled over the sequence of chunk sizes the
remote sends.  The state observed by claim C6 is the file on disk: the
second component of the result is its final size (`none` = no file), the
third is the largest number of bytes that were ever on disk during the
transfer.  In the source, a chunk is counted, then checked against the
cap, and only then written, so an overrunning chunk is never written;
`os.remove` in the loop and in the `except` handler deletes any partial
file, and the surrounding `try` re-raises so the caller sees a failure. -/

def maxDownloadSize : Nat := 500 * 1024 * 1024

/-- The `aiter_bytes` loop: returns `none` at the point the cap is
exceeded (partial file removed, `ValueError` raised), else the final size;
paired with the bytes on disk when the loop ended. -/
def streamChunks : List Nat → Nat → Option Nat × Nat
  | [], w => (some w, w)
  | c :: cs, w =>
    if w + c > maxDownloadSize then (none, w) else streamChunks cs (w + c)

def download_federated_video (contentLength : Option Nat) (httpOk : Bool)
    (chunks : List Nat) (streamFails : Bool) (durationStr : Option String)
    (path : String) : Except String String × Option Nat × Nat :=
  if ¬httpOk then (Except.error "HTTP error", none, 0)
  else if (match contentLength with
           | some len => decide (len > maxDownloadSize)
           | none => false) then
    (Except.error "File size exceeds limit", none, 0)
  else
    match streamChunks chunks 0 with
    | (none, w) => (Except.error "File size exceeds limit during download", none, w)
    | (some w, _) =>
      if streamFails then (Except.error "network error during download", none, w)
      else if durationExceeds (parse_duration (durationStr.getD "")) 180 then
        (Except.error "Duration exceeds 180s limit", none, w)
      else (Except.ok path, some w, w)

/-! ## `OutboxHandler` — src/backend/scripts/write_outbox.py (the script
writes app/federation/outbox.py verbatim) and src/backend/app/config.py -/

/-- Embeds `settings.DELIVERY_RETRY_ATTEMPTS` (config.py line 80). -/
def DELIVERY_RETRY_ATTEMPTS : Nat := 5

/-- Embeds `settings.DELIVERY_RETRY_DELAYS_MIN` (config.py line 81). -/
def DELIVERY_RETRY_DELAYS_MIN : List Nat := [1, 5, 15, 60, 240]

/-- Embeds `settings.MAX_VIDEO_DURATION_SEC` (config.py line 44). -/
def MAX_VIDEO_DURATION_SEC : Nat := 180

/-- A `DeliveryRecord` row (models.py line 132); times are minutes on an
abstract clock. -/
structure DeliveryRec where
  activityId : Nat
  inboxUrl : String
  status : String
  attempts : Nat
  lastAttemptAt : Option Nat
  nextRetryAt : Option Nat
  errorMessage : Option String
  deriving DecidableEq

/-- Outcome of one `deliver_activity` POST: a 2xx response, or a non-2xx /
network / timeout failure with its error message. -/
inductive DeliveryOutcome where
  | success
  | failure (msg : String)
  deriving DecidableEq

/-- Embeds `OutboxHandler.create_delivery_tasks` (lines 57-86): one `pending`
record per inbox with `attempts = 0` and `next_retry_at = now`. -/
def create_delivery_tasks (activityId : Nat) (inboxUrls : List String) (now : Nat) :
    List DeliveryRec :=
  inboxUrls.map (fun url =>
    { activityId := activityId, inboxUrl := url, status := "pending", attempts := 0,
      lastAttemptAt := none, nextRetryAt := some now, errorMessage := none })

/-- Embeds `OutboxHandler.process_delivery_record` (lines 125-183).  The two
lookups preceding the POST (owning activity, owner's key material) are
supplied as flags; when either is missing the record is failed without an
attempt.  Otherwise `attempts` is incremented, and a success is terminal
(`delivered`), while a failure either exhausts the attempt budget
(`failed`, `next_retry_at = None`) or schedules the retry
`delays[attempts - 1]` minutes from now. -/
def process_delivery_record (activityFound userFound : Bool)
    (outcome : DeliveryOutcome) (now : Nat) (r : DeliveryRec) : Bool × DeliveryRec :=
  if ¬activityFound then
    (false, { r with status := "failed", errorMessage := some "Activity not found" })
  else if ¬userFound then
    (false, { r with status := "failed", errorMessage := some "User or DID not found" })
  else
    let r1 := { r with attempts := r.attempts + 1, lastAttemptAt := some now }
    match outcome with
    | .success => (true, { r1 with status := "delivered", nextRetryAt := none })
    | .failure msg =>
      let r2 := { r1 with errorMessage := some msg }
      if r2.attempts ≥ DELIVERY_RETRY_ATTEMPTS then
        (false, { r2 with status := "failed", nextRetryAt := none })
      else
        let delay := DELIVERY_RETRY_DELAYS_MIN.getD (r2.attempts - 1) 0
        (false, { r2 with nextRetryAt := some (now + delay) })

/-- The sweep filter of `process_pending_deliveries` (lines 185-219):
`status == "pending" and next_retry_at <= now`. -/
def sweepSelects (now : Nat) (r : DeliveryRec) : Bool :=
  r.status == "pending" &&
    (match r.nextRetryAt with
     | some t => decide (t ≤ now)
     | none => false)

/-- Embeds `OutboxHandler.get_delivery_stats` (lines 247-265). -/
def get_delivery_stats (records : List DeliveryRec) (activityId : Nat) :
    Nat × Nat × Nat × Nat :=
  let rs := records.filter (fun r => r.activityId == activityId)
  (rs.length,
   (rs.filter (fun r => r.status == "delivered")).length,
   (rs.filter (fun r => r.status == "pending")).length,
   (rs.filter (fun r => r.status == "failed")).length)

/-! ## `IdentityService.verify_move_activity`
(src/backend/app/services/identity.py, lines 335-372)

The source resolves the claimed actor identifier to the `DIDDocument` on
file and then — as its own comment admits, "a simplified version" —
returns `True` without inspecting the `signature` argument at all. -/

/-- A `DIDDocument` row (models.py line 193), restricted to the columns
the verification path reads. -/
structure DidDoc where
  did : String
  publicKey : String
  deriving DecidableEq

def verify_move_activity (docs : List DidDoc) (moveActor : String)
    (signature : String) : Bool :=
  match docs.find? (fun d => d.did == moveActor) with
  | none => false
  | some _ => true

/-- The spec's "exact form `PT<digits>S`": `PT`, then one or more ASCII
digits, then `S`. -/
def isStrictPTDigitsS (s : String) : Bool :=
  s.data.take 2 = ['P', 'T'] && (s.data.drop 2).getLast? = some 'S' &&
    (s.data.drop 2).dropLast ≠ [] &&
    ((s.data.drop 2).dropLast).all Char.isDigit

/-- A fresh `DeliveryRecord`, as created by `create_delivery_tasks`. -/
def c3Start : DeliveryRec :=
  { activityId := 1, inboxUrl := "https://remote/inbox", status := "pending",
    attempts := 0, lastAttemptAt := none, nextRetryAt := some 0, errorMessage := none }

/-- One transient delivery failure at clock time 0. -/
def c3FailStep (r : DeliveryRec) : DeliveryRec :=
  (process_delivery_record true true (DeliveryOutcome.failure "503") 0 r).2

/-- The status partition invariant the outbox maintains. -/
def validDeliveryStatus (r : DeliveryRec) : Bool :=
  r.status == "pending" || r.status == "delivered" || r.status == "failed"

/-! ## C2 — idempotence of the inbound pipeline -/

/-- Number of stored `Activity` rows carrying a given `activity_id`. -/
def countActivities (db : DB) (aid : String) : Nat :=
  (db.activities.filter (fun a => a.activityId == aid)).length

/-- One local video, as stored before the counterexample runs. -/
def c2Video : VideoRec :=
  { apId := "V", likeCount := 0, commentCount := 0, shareCount := 0, viewCount := 0,
    engagementScore := 0 }

def c2Db0 : DB :=
  { videos := [c2Video], activities := [], comments := [], followers := [] }

/-- A `Like` whose `object` field is a bare id string — the common wire
form `"object": "https://.../videos/1"`. -/
def c2LikeAct : InActivity :=
  { id := "https://remote/activities/like-1", activityType := "Like", actor := "a",
    obj := ObjField.str "V", target := none }

/-- The video record created for an accepted federated `Create(Video)`. -/
def newVideoRec (o : APObject) : VideoRec :=
  { apId := o.id, likeCount := 0, commentCount := 0, shareCount := 0, viewCount := 0,
    engagementScore := 0 }

/-- The conclusion of the amended idempotence claim: a second submission
of the same activity changes nothing, exactly one `Activity` row with the
activity id is stored, and — when the first submission succeeded — the
second answers 200, except `Delete`, which answers 404. -/
def C2Conc (db : DB) (act : InActivity) (dl : Except String String) : Prop :=
  (handle_activity (handle_activity db act dl).2.1 act dl).2.1
      = (handle_activity db act dl).2.1
  ∧ countActivities (handle_activity db act dl).2.1 act.id = 1
  ∧ ((handle_activity db act dl).1.status = 200 ∨ (handle_activity db act dl).1.status = 202 →
      (handle_activity (handle_activity db act dl).2.1 act dl).1.status
        = if act.activityType = "Delete" then 404 else 200)

/-- A `Like` whose `object` is an embedded object carrying the id. -/
def c2DictLikeAct : InActivity :=
  { id := "https://remote/activities/like-2", activityType := "Like", actor := "a",
    obj := ObjField.obj
      { id := "V", objType := "Video", duration := none, url := "u", inReplyTo := none },
    target := none }

/-! ## Theorems -/

theorem digitVal_digitChar : ∀ d : Nat, d < 10 → digitVal (digitChar d) = some d := by
  decide

theorem digitChar_toNat : ∀ d : Nat, d < 10 → (digitChar d).toNat = 48 + d := by
  decide

theorem natToDigitsAux_zero : ∀ fuel : Nat, natToDigitsAux fuel 0 = [] := by
  intro fuel
  cases fuel <;> rfl

theorem digitsToNat_natToDigitsAux :
    ∀ fuel n : Nat, n ≤ fuel → digitsToNat (natToDigitsAux fuel n) = some n := by
  intro fuel
  induction fuel with
  | zero =>
    intro n hn
    interval_cases n
    rfl
  | succ fuel ih =>
    intro n hn
    match n with
    | 0 => rfl
    | m + 1 =>
      have hdiv : (m + 1) / 10 ≤ fuel := by
        have h1 : (m + 1) / 10 < m + 1 := Nat.div_lt_self (Nat.succ_pos m) (by omega)
        omega
      have hmod : (m + 1) % 10 < 10 := Nat.mod_lt _ (by omega)
      simp only [natToDigitsAux, digitsToNat, digitVal_digitChar _ hmod, ih _ hdiv,
        Option.some.injEq]
      have := Nat.mod_add_div (m + 1) 10
      omega

theorem digitStrToNat_natToDigitStr (n : Nat) :
    digitStrToNat (natToDigitStr n) = some n := by
  by_cases h : n = 0
  · subst h
    rfl
  · have hpos : 0 < n := Nat.pos_of_ne_zero h
    unfold natToDigitStr
    rw [if_neg h]
    have hcons : ∃ c cs, natToDigitsAux n n = c :: cs := by
      match n, hpos with
      | m + 1, _ => exact ⟨_, _, rfl⟩
    obtain ⟨c, cs, hc⟩ := hcons
    have hmk : digitStrToNat (String.mk (c :: cs)) = digitsToNat (c :: cs) := rfl
    rw [hc, hmk, ← hc, digitsToNat_natToDigitsAux n n (le_refl n)]

theorem natToDigitStr_inj {m n : Nat} (h : natToDigitStr m = natToDigitStr n) : m = n := by
  have hm := digitStrToNat_natToDigitStr m
  have hn := digitStrToNat_natToDigitStr n
  rw [h, hn] at hm
  exact (Option.some.injEq _ _ ▸ hm).symm

/-- Every character produced by the digit codec is a decimal digit. -/
theorem natToDigitsAux_digits :
    ∀ fuel n c, c ∈ natToDigitsAux fuel n → 48 ≤ c.toNat ∧ c.toNat ≤ 57 := by
  intro fuel
  induction fuel with
  | zero =>
    intro n c hc
    simp [natToDigitsAux] at hc
  | succ fuel ih =>
    intro n c hc
    match n with
    | 0 => simp [natToDigitsAux] at hc
    | m + 1 =>
      simp only [natToDigitsAux, List.mem_cons] at hc
      rcases hc with hc | hc
      · have hmod : (m + 1) % 10 < 10 := Nat.mod_lt _ (by omega)
        subst hc
        rw [digitChar_toNat _ hmod]
        omega
      · exact ih _ _ hc

theorem char_toNat_lt (c : Char) : c.toNat < 1114112 := by
  have h := c.valid
  rcases h with h | ⟨_, h⟩
  · have : c.val.toNat < 0xD800 := h
    simp only [Char.toNat]
    omega
  · have : c.val.toNat < 0x110000 := h
    simp only [Char.toNat]
    omega

theorem char_toNat_injective {c d : Char} (h : c.toNat = d.toNat) : c = d := by
  have hc := Char.ofNat_toNat c
  have hd := Char.ofNat_toNat d
  rw [← hc, ← hd, h]

theorem strEncode_inj : ∀ l₁ l₂ : List Char, strEncode l₁ = strEncode l₂ → l₁ = l₂ := by
  intro l₁
  induction l₁ with
  | nil =>
    intro l₂ h
    cases l₂ with
    | nil => rfl
    | cons d ds =>
      exfalso
      simp only [strEncode] at h
      omega
  | cons c cs ih =>
    intro l₂ h
    cases l₂ with
    | nil =>
      exfalso
      simp only [strEncode] at h
      omega
    | cons d ds =>
      simp only [strEncode] at h
      have hc : c.toNat + 1 < charBase := by
        have := char_toNat_lt c
        simp only [charBase]
        omega
      have hd : d.toNat + 1 < charBase := by
        have := char_toNat_lt d
        simp only [charBase]
        omega
      have hBpos : 0 < charBase := by simp [charBase]
      have hmod : c.toNat + 1 = d.toNat + 1 := by
        have h1 : (c.toNat + 1 + charBase * strEncode cs) % charBase = c.toNat + 1 := by
          rw [Nat.add_mul_mod_self_left]
          exact Nat.mod_eq_of_lt hc
        have h2 : (d.toNat + 1 + charBase * strEncode ds) % charBase = d.toNat + 1 := by
          rw [Nat.add_mul_mod_self_left]
          exact Nat.mod_eq_of_lt hd
        rw [← h1, ← h2, h]
      have hdivc : (c.toNat + 1 + charBase * strEncode cs) / charBase = strEncode cs := by
        rw [Nat.add_mul_div_left _ _ hBpos, Nat.div_eq_of_lt hc, Nat.zero_add]
      have hdivd : (d.toNat + 1 + charBase * strEncode ds) / charBase = strEncode ds := by
        rw [Nat.add_mul_div_left _ _ hBpos, Nat.div_eq_of_lt hd, Nat.zero_add]
      have htail : strEncode cs = strEncode ds := by
        rw [← hdivc, ← hdivd, h]
      have hchar : c = d := char_toNat_injective (by omega)
      rw [hchar, ih ds htail]

theorem loadPemKey_pemOfKey (k : Nat) : loadPemKey (pemOfKey k) = some k :=
  digitStrToNat_natToDigitStr k

theorem rsaVerify_rsaSign (k : Nat) (m : String) : rsaVerify k m (rsaSign k m) = true := by
  simp [rsaVerify]

theorem rsaVerify_wrong_key {k k' : Nat} (m : String) (h : k' ≠ k) :
    rsaVerify k' m (rsaSign k m) = false := by
  simp only [rsaVerify, rsaSign, beq_eq_false_iff_ne, ne_eq]
  intro hc
  exact h (Nat.pair_eq_pair.mp hc.symm).1

theorem rsaVerify_wrong_message {m m' : String} (k : Nat) (h : m' ≠ m) :
    rsaVerify k m' (rsaSign k m) = false := by
  simp only [rsaVerify, rsaSign, beq_eq_false_iff_ne, ne_eq]
  intro hc
  have := (Nat.pair_eq_pair.mp hc.symm).2
  have hdata : m'.data = m.data := strEncode_inj _ _ this
  exact h (by cases m; cases m'; simp_all)

theorem shaB64_inj {s t : String} (h : shaB64 s = shaB64 t) : s = t := by
  have h1 := natToDigitStr_inj h
  have h2 := strEncode_inj _ _ h1
  cases s; cases t; simp_all

theorem splitOnCharAux_no_sep {sep : Char} :
    ∀ l acc, sep ∉ l → splitOnCharAux sep l acc = [acc.reverse ++ l] := by
  intro l
  induction l with
  | nil => intro acc _; simp [splitOnCharAux]
  | cons x xs ih =>
    intro acc hx
    have hxs : sep ∉ xs := fun h => hx (List.mem_cons_of_mem _ h)
    have hne : ¬x = sep := fun h => hx (h ▸ List.mem_cons_self _ _)
    simp only [splitOnCharAux, if_neg hne, ih _ hxs, List.reverse_cons, List.append_assoc,
      List.cons_append, List.nil_append]

theorem splitOnCharAux_append {sep : Char} :
    ∀ l₁ l₂ acc, sep ∉ l₁ →
      splitOnCharAux sep (l₁ ++ sep :: l₂) acc =
        (acc.reverse ++ l₁) :: splitOnCharAux sep l₂ [] := by
  intro l₁
  induction l₁ with
  | nil =>
    intro l₂ acc _
    simp [splitOnCharAux]
  | cons x xs ih =>
    intro l₂ acc hx
    have hxs : sep ∉ xs := fun h => hx (List.mem_cons_of_mem _ h)
    have hne : ¬x = sep := fun h => hx (h ▸ List.mem_cons_self _ _)
    have hstep : splitOnCharAux sep ((x :: xs) ++ sep :: l₂) acc
        = splitOnCharAux sep (xs ++ sep :: l₂) (x :: acc) := by
      simp [splitOnCharAux, hne]
    rw [hstep, ih _ _ hxs, List.reverse_cons]
    simp

theorem splitOnChar_append {sep : Char} {l₁ l₂ : List Char} (h : sep ∉ l₁) :
    splitOnChar sep (l₁ ++ sep :: l₂) = l₁ :: splitOnChar sep l₂ := by
  simp [splitOnChar, splitOnCharAux_append _ _ _ h]

theorem splitOnChar_no_sep {sep : Char} {l : List Char} (h : sep ∉ l) :
    splitOnChar sep l = [l] := by
  simp [splitOnChar, splitOnCharAux_no_sep _ _ h]

theorem splitFirstChar_append {sep : Char} :
    ∀ l₁ l₂, sep ∉ l₁ → splitFirstChar sep (l₁ ++ sep :: l₂) = some (l₁, l₂) := by
  intro l₁
  induction l₁ with
  | nil =>
    intro l₂ _
    simp [splitFirstChar]
  | cons x xs ih =>
    intro l₂ hx
    have hxs : sep ∉ xs := fun h => hx (List.mem_cons_of_mem _ h)
    have hne : ¬x = sep := fun h => hx (h ▸ List.mem_cons_self _ _)
    have hstep : splitFirstChar sep ((x :: xs) ++ sep :: l₂)
        = (splitFirstChar sep (xs ++ sep :: l₂)).map (fun p => (x :: p.1, p.2)) := by
      simp [splitFirstChar, hne]
    rw [hstep, ih _ hxs]
    rfl

theorem splitFirstChar_no_sep {sep : Char} :
    ∀ l, sep ∉ l → splitFirstChar sep l = none := by
  intro l
  induction l with
  | nil => intro _; rfl
  | cons x xs ih =>
    intro hx
    have hxs : sep ∉ xs := fun h => hx (List.mem_cons_of_mem _ h)
    have hne : ¬x = sep := fun h => hx (h ▸ List.mem_cons_self _ _)
    have hstep : splitFirstChar sep (x :: xs)
        = (splitFirstChar sep xs).map (fun p => (x :: p.1, p.2)) := by
      simp [splitFirstChar, hne]
    rw [hstep, ih hxs]
    rfl

theorem dropWhile_eq_of_not_mem {c : Char} :
    ∀ {l : List Char}, c ∉ l → l.dropWhile (· = c) = l := by
  intro l h
  cases l with
  | nil => rfl
  | cons x xs =>
    have hx : ¬x = c := fun hh => h (hh ▸ List.mem_cons_self _ _)
    rw [List.dropWhile_cons]
    simp [hx]

/-- Stripping the strip character from a value of the form `c ++ body ++ c`
recovers `body` when `body` itself avoids the character — exactly the shape
`'"' <signature> '"'` produced by `sign_activity`. -/
theorem stripChar_wrap {c : Char} {l : List Char} (hne : l ≠ []) (hmem : c ∉ l) :
    stripChar c (c :: (l ++ [c])) = l := by
  unfold stripChar
  have h1 : (c :: (l ++ [c])).dropWhile (· = c) = l ++ [c] := by
    rw [List.dropWhile_cons]
    simp only [decide_eq_true_eq, if_pos rfl]
    cases l with
    | nil => exact absurd rfl hne
    | cons d ds =>
      have hd : ¬d = c := fun hh => hmem (hh ▸ List.mem_cons_self _ _)
      rw [List.cons_append, List.dropWhile_cons]
      simp [hd]
  rw [h1, List.reverse_append]
  have h2 : ([c].reverse ++ l.reverse).dropWhile (· = c) = l.reverse := by
    simp only [List.reverse_singleton, List.singleton_append, List.dropWhile_cons]
    simp only [decide_eq_true_eq, if_pos rfl]
    exact dropWhile_eq_of_not_mem (by simpa using hmem)
  rw [h2, List.reverse_reverse]

theorem mk_data (s : String) : String.mk s.data = s := by
  cases s
  rfl

theorem string_append_left_cancel {p x y : String} (h : p ++ x = p ++ y) : x = y := by
  have hd : (p ++ x).data = (p ++ y).data := by rw [h]
  simp only [String.data_append] at hd
  have := List.append_cancel_left hd
  cases x
  cases y
  simp_all

theorem natToDigitStr_digits (n : Nat) :
    ∀ c ∈ (natToDigitStr n).data, 48 ≤ c.toNat ∧ c.toNat ≤ 57 := by
  unfold natToDigitStr
  by_cases h : n = 0
  · rw [if_pos h]
    decide
  · rw [if_neg h]
    intro c hc
    exact natToDigitsAux_digits n n c hc

theorem natToDigitStr_ne_nil (n : Nat) : (natToDigitStr n).data ≠ [] := by
  unfold natToDigitStr
  by_cases h : n = 0
  · rw [if_pos h]
    decide
  · rw [if_neg h]
    match n, h with
    | m + 1, _ => simp [natToDigitsAux]

theorem digit_no_comma {l : List Char} (h : ∀ c ∈ l, 48 ≤ c.toNat ∧ c.toNat ≤ 57) :
    (',' : Char) ∉ l := by
  intro hmem
  have := h _ hmem
  revert this
  decide

theorem digit_no_quote {l : List Char} (h : ∀ c ∈ l, 48 ≤ c.toNat ∧ c.toNat ≤ 57) :
    ('\x22' : Char) ∉ l := by
  intro hmem
  have := h _ hmem
  revert this
  decide

/-- The signing string determines the digest component: two signing strings
with the same host and date but different digests differ. -/
theorem signingString_digest_inj {host date g g' : String}
    (h : signingString host date g = signingString host date g') : g = g' := by
  unfold signingString joinNl at h
  have h1 := string_append_left_cancel h
  have h2 := string_append_left_cancel h1
  have h3 := string_append_left_cancel h2
  exact string_append_left_cancel h3

/-- Parsing the exact header produced by `sign_activity`: provided the key
id contains no comma (the header syntax cannot carry one) and the
signature field is a digit string, the parse yields the four fields the
signer wrote. -/
theorem parseSigParts_signed (K S : String) (hK : (',' : Char) ∉ K.data)
    (hSd : ∀ c ∈ S.data, 48 ≤ c.toNat ∧ c.toNat ≤ 57) (hSne : S.data ≠ []) :
    parseSigParts ("keyId=\x22" ++ K ++
        "\x22,algorithm=\x22rsa-sha256\x22,headers=\x22(request-target) host date digest\x22,signature=\x22"
        ++ S ++ "\x22")
      = some [("keyId", String.mk (stripChar '\x22' ('\x22' :: (K.data ++ ['\x22'])))),
              ("algorithm", "rsa-sha256"),
              ("headers", "(request-target) host date digest"),
              ("signature", S)] := by
  have hSnc : (',' : Char) ∉ S.data := digit_no_comma hSd
  have hSnq : ('\x22' : Char) ∉ S.data := digit_no_quote hSd
  have hdata : ("keyId=\x22" ++ K ++
        "\x22,algorithm=\x22rsa-sha256\x22,headers=\x22(request-target) host date digest\x22,signature=\x22"
        ++ S ++ "\x22").data
      = ("keyId=\x22".data ++ K.data ++ ['\x22']) ++ ',' ::
        ("algorithm=\x22rsa-sha256\x22".data ++ ',' ::
         ("headers=\x22(request-target) host date digest\x22".data ++ ',' ::
          ("signature=\x22".data ++ S.data ++ ['\x22']))) := by
    have hBIG : ("\x22,algorithm=\x22rsa-sha256\x22,headers=\x22(request-target) host date digest\x22,signature=\x22" : String).data
        = ['\x22', ','] ++ "algorithm=\x22rsa-sha256\x22".data ++ [','] ++
          "headers=\x22(request-target) host date digest\x22".data ++ [','] ++
          "signature=\x22".data := by decide
    have hq : ("\x22" : String).data = ['\x22'] := by decide
    simp only [String.data_append, hBIG, hq, List.append_assoc, List.cons_append,
      List.singleton_append, List.nil_append, List.append_nil]
  have hmem1 : (',' : Char) ∉ "keyId=\x22".data ++ K.data ++ ['\x22'] := by
    intro hm
    simp only [List.append_assoc, List.mem_append, List.mem_singleton] at hm
    rcases hm with hm | hm | hm
    · revert hm; decide
    · exact hK hm
    · revert hm; decide
  have hmem2 : (',' : Char) ∉ "algorithm=\x22rsa-sha256\x22".data := by decide
  have hmem3 : (',' : Char) ∉ "headers=\x22(request-target) host date digest\x22".data := by
    decide
  have hmem4 : (',' : Char) ∉ "signature=\x22".data ++ S.data ++ ['\x22'] := by
    intro hm
    simp only [List.append_assoc, List.mem_append, List.mem_singleton] at hm
    rcases hm with hm | hm | hm
    · revert hm; decide
    · exact hSnc hm
    · revert hm; decide
  have hsplit : splitOnChar ','
      (("keyId=\x22".data ++ K.data ++ ['\x22']) ++ ',' ::
        ("algorithm=\x22rsa-sha256\x22".data ++ ',' ::
         ("headers=\x22(request-target) host date digest\x22".data ++ ',' ::
          ("signature=\x22".data ++ S.data ++ ['\x22']))))
      = [("keyId=\x22".data ++ K.data ++ ['\x22']),
         "algorithm=\x22rsa-sha256\x22".data,
         "headers=\x22(request-target) host date digest\x22".data,
         ("signature=\x22".data ++ S.data ++ ['\x22'])] := by
    rw [splitOnChar_append hmem1, splitOnChar_append hmem2, splitOnChar_append hmem3,
      splitOnChar_no_sep hmem4]
  have hp1 : splitFirstChar '=' ("keyId=\x22".data ++ K.data ++ ['\x22'])
      = some ("keyId".data, '\x22' :: (K.data ++ ['\x22'])) := by
    have hlit : "keyId=\x22".data = "keyId".data ++ '=' :: ['\x22'] := by decide
    have hsh : "keyId=\x22".data ++ K.data ++ ['\x22']
        = "keyId".data ++ '=' :: ('\x22' :: (K.data ++ ['\x22'])) := by
      rw [hlit]
      simp
    rw [hsh]
    exact splitFirstChar_append _ _ (by decide)
  have hp2 : splitFirstChar '=' "algorithm=\x22rsa-sha256\x22".data
      = some ("algorithm".data, "\x22rsa-sha256\x22".data) := by decide
  have hp3 : splitFirstChar '=' "headers=\x22(request-target) host date digest\x22".data
      = some ("headers".data, "\x22(request-target) host date digest\x22".data) := by decide
  have hp4 : splitFirstChar '=' ("signature=\x22".data ++ S.data ++ ['\x22'])
      = some ("signature".data, '\x22' :: (S.data ++ ['\x22'])) := by
    have hlit : "signature=\x22".data = "signature".data ++ '=' :: ['\x22'] := by decide
    have hsh : "signature=\x22".data ++ S.data ++ ['\x22']
        = "signature".data ++ '=' :: ('\x22' :: (S.data ++ ['\x22'])) := by
      rw [hlit]
      simp
    rw [hsh]
    exact splitFirstChar_append _ _ (by decide)
  have hv4 : stripChar '\x22' ('\x22' :: (S.data ++ ['\x22'])) = S.data :=
    stripChar_wrap hSne hSnq
  unfold parseSigParts
  rw [hdata, hsplit]
  simp only [parseSigParts.go, hp1, hp2, hp3, hp4, hv4, Option.map_map, Option.map_some]
  simp only [mk_data, Option.some.injEq, List.cons.injEq, Prod.mk.injEq]
  exact rfl

/-- Embeds `verify_signature` on a header built by `sign_activity` reduces to the
cryptographic check of the reconstructed signing string. -/
theorem verify_signed_header (K S rt host date dgArg pem : String) (sig k₀ : Nat)
    (hK : (',' : Char) ∉ K.data)
    (hSd : ∀ c ∈ S.data, 48 ≤ c.toNat ∧ c.toNat ≤ 57)
    (hSne : S.data ≠ [])
    (hS : digitStrToNat S = some sig)
    (hpem : loadPemKey pem = some k₀) :
    verify_signature ("keyId=\x22" ++ K ++
        "\x22,algorithm=\x22rsa-sha256\x22,headers=\x22(request-target) host date digest\x22,signature=\x22"
        ++ S ++ "\x22") rt host date dgArg pem
      = rsaVerify k₀ (joinNl ["(request-target): " ++ rt, "host: " ++ host,
          "date: " ++ date, "digest: " ++ dgArg]) sig := by
  have hparse := parseSigParts_signed K S hK hSd hSne
  have hSne' : ¬S = "" := by
    intro h
    rw [h] at hSne
    exact hSne rfl
  unfold verify_signature
  rw [hparse]
  dsimp only
  have hlook_sig : lookupLast
      [("keyId", String.mk (stripChar '\x22' ('\x22' :: (K.data ++ ['\x22'])))),
       ("algorithm", "rsa-sha256"),
       ("headers", "(request-target) host date digest"),
       ("signature", S)] "signature" = some S := by
    simp [lookupLast, List.find?]
  have hlook_hdr : lookupLast
      [("keyId", String.mk (stripChar '\x22' ('\x22' :: (K.data ++ ['\x22'])))),
       ("algorithm", "rsa-sha256"),
       ("headers", "(request-target) host date digest"),
       ("signature", S)] "headers"
      = some "(request-target) host date digest" := by
    simp [lookupLast, List.find?]
  rw [hlook_sig]
  simp only [if_neg hSne', hS, hlook_hdr, Option.getD_some, hpem]
  have hwords : (wordsWs ("(request-target) host date digest" : String).data).map String.mk
      = ["(request-target)", "host", "date", "digest"] := by decide
  rw [hwords]
  have hrecon : reconstructSigningString ["(request-target)", "host", "date", "digest"]
      rt host date dgArg
      = joinNl ["(request-target): " ++ rt, "host: " ++ host, "date: " ++ date,
          "digest: " ++ dgArg] := by
    unfold reconstructSigningString
    simp [List.filterMap]
  rw [hrecon]

theorem joinNl_recon_eq (host date dg : String) :
    joinNl ["(request-target): " ++ "post /inbox", "host: " ++ host, "date: " ++ date,
      "digest: " ++ ("SHA-256=" ++ dg)]
    = signingString host date dg := by
  unfold signingString joinNl
  have h1 : "(request-target): " ++ "post /inbox" = "(request-target): post /inbox" := rfl
  have h2 : "digest: " ++ ("SHA-256=" ++ dg) = "digest: SHA-256=" ++ dg := by
    rw [← String.append_assoc]
    rfl
  rw [h1, h2]

/-- C1: For every activity envelope and every keypair, verifying the
header produced by `sign_activity` against the matching public key and the
very request-target, host, date and digest the signer embedded succeeds;
verification fails for a non-matching public key, and fails when any byte
of the canonicalized envelope (hence the digest) changes.  The key id is
assumed comma-free, as the comma is the header-syntax separator. -/
theorem c1_sign_verify_roundtrip (env env' : Envelope) (k k' : Nat)
    (keyId host date header : String)
    (hK : (',' : Char) ∉ keyId.data)
    (hsig : sign_activity env (pemOfKey k) keyId host date = Except.ok header) :
    verify_signature header "post /inbox" host date
        ("SHA-256=" ++ shaB64 (canonicalJson env)) (pemOfKey k) = true
    ∧ (k' ≠ k →
        verify_signature header "post /inbox" host date
          ("SHA-256=" ++ shaB64 (canonicalJson env)) (pemOfKey k') = false)
    ∧ (canonicalJson env' ≠ canonicalJson env →
        verify_signature header "post /inbox" host date
          ("SHA-256=" ++ shaB64 (canonicalJson env')) (pemOfKey k) = false) := by
  unfold sign_activity at hsig
  rw [loadPemKey_pemOfKey] at hsig
  dsimp only at hsig
  have hheader : header
      = "keyId=\x22" ++ keyId ++
        "\x22,algorithm=\x22rsa-sha256\x22,headers=\x22(request-target) host date digest\x22,signature=\x22"
        ++ natToDigitStr (rsaSign k
            (signingString host date (shaB64 (canonicalJson env)))) ++ "\x22" :=
    (Except.ok.inj hsig).symm
  rw [hheader]
  set dg := shaB64 (canonicalJson env) with hdg
  set ss := signingString host date dg with hss
  set sig := rsaSign k ss with hsigdef
  set S := natToDigitStr sig with hSdef
  have hSd := natToDigitStr_digits sig
  have hSne := natToDigitStr_ne_nil sig
  have hSdec : digitStrToNat S = some sig := digitStrToNat_natToDigitStr sig
  refine ⟨?_, ?_, ?_⟩
  · rw [verify_signed_header keyId S "post /inbox" host date ("SHA-256=" ++ dg)
      (pemOfKey k) sig k hK hSd hSne hSdec (loadPemKey_pemOfKey k),
      joinNl_recon_eq]
    exact rsaVerify_rsaSign k ss
  · intro hkne
    rw [verify_signed_header keyId S "post /inbox" host date ("SHA-256=" ++ dg)
      (pemOfKey k') sig k' hK hSd hSne hSdec (loadPemKey_pemOfKey k'),
      joinNl_recon_eq]
    exact rsaVerify_wrong_key ss hkne
  · intro henv
    rw [verify_signed_header keyId S "post /inbox" host date
      ("SHA-256=" ++ shaB64 (canonicalJson env'))
      (pemOfKey k) sig k hK hSd hSne hSdec (loadPemKey_pemOfKey k),
      joinNl_recon_eq]
    apply rsaVerify_wrong_message
    intro hsseq
    exact henv (shaB64_inj (signingString_digest_inj hsseq))

set_option maxHeartbeats 2000000 in
/-- Witness for **C1** at a concrete envelope and keypair. -/
theorem c1_sign_verify_roundtrip_witness :
    verify_signature
        ((sign_activity [("id", "x")] (pemOfKey 2) "key-1" "h" "d").toOption.getD "")
        "post /inbox" "h" "d" ("SHA-256=" ++ shaB64 (canonicalJson [("id", "x")]))
        (pemOfKey 2) = true
    ∧ verify_signature
        ((sign_activity [("id", "x")] (pemOfKey 2) "key-1" "h" "d").toOption.getD "")
        "post /inbox" "h" "d" ("SHA-256=" ++ shaB64 (canonicalJson [("id", "x")]))
        (pemOfKey 3) = false
    ∧ verify_signature
        ((sign_activity [("id", "x")] (pemOfKey 2) "key-1" "h" "d").toOption.getD "")
        "post /inbox" "h" "d" ("SHA-256=" ++ shaB64 (canonicalJson [("id", "y")]))
        (pemOfKey 2) = false := by
  have h := c1_sign_verify_roundtrip [("id", "x")] [("id", "y")] 2 3 "key-1" "h" "d"
    ((sign_activity [("id", "x")] (pemOfKey 2) "key-1" "h" "d").toOption.getD "")
    (by decide) (by rfl)
  exact ⟨h.1, h.2.1 (by decide), h.2.2 (by decide)⟩

/-- C8: `verify_signature` is total: every input produces a boolean.
Each failure path — a header part with no equals sign (the tuple-unpacking
`ValueError`), a missing or empty `signature` field, undecodable base64, an
unloadable public key, or a cryptographic mismatch — yields `false` rather
than an exception, and the function returns `true` exactly when the
signing string reconstructed from the header's own `headers` field
verifies under the given public key. -/
theorem c8_verify_signature_total (header rt host date digest pem : String) :
    verify_signature header rt host date digest pem = true
      ↔ ∃ parts sb sigN pubN,
          parseSigParts header = some parts
          ∧ lookupLast parts "signature" = some sb
          ∧ sb ≠ ""
          ∧ digitStrToNat sb = some sigN
          ∧ loadPemKey pem = some pubN
          ∧ rsaVerify pubN
              (reconstructSigningString
                ((wordsWs (((lookupLast parts "headers").getD "").data)).map String.mk)
                rt host date digest) sigN = true := by
  unfold verify_signature
  cases hp : parseSigParts header with
  | none => simp [hp]
  | some parts =>
    cases hl : lookupLast parts "signature" with
    | none => simp [hp, hl]
    | some sb =>
      by_cases hsb : sb = ""
      · subst hsb
        simp [hp, hl]
      · cases hd : digitStrToNat sb with
        | none => simp [hp, hl, hsb, hd]
        | some sigN =>
          cases hk : loadPemKey pem with
          | none => simp [hp, hl, hsb, hd, hk]
          | some pubN => simp [hp, hl, hsb, hd, hk]

/-- C4: The claim requires `verify_move_activity` to accept only
signatures that cryptographically verify under the on-file key; the code
returns `true` for *every* signature once the claimed DID is on file —
its docstring ("Verify Move activity signature matches the original DID")
is contradicted by its body, which never reads `signature`.  Evaluated at
the failing input: a DID on file and a plainly invalid signature. -/
theorem c4_verify_move_ignores_signature :
    verify_move_activity [{ did := "did:key:zABC", publicKey := "PEM" }]
        "did:key:zABC" "this-is-not-a-valid-signature" = true
    ∧ ∀ s : String,
        verify_move_activity [{ did := "did:key:zABC", publicKey := "PEM" }]
          "did:key:zABC" s
        = verify_move_activity [{ did := "did:key:zABC", publicKey := "PEM" }]
          "did:key:zABC" "this-is-not-a-valid-signature" := by
  exact ⟨rfl, fun s => rfl⟩

/-- C5: A federated `Create(Video)` whose declared duration parses to
a value above the 180-second platform maximum is rejected with 400 before
the download is started, and the store is unchanged (no local content
record). -/
theorem c5_overlong_video_rejected (db : DB) (o : APObject)
    (dl : Except String String) (d : Int)
    (hnew : findVideo db o.id = none)
    (hdur : parse_duration (o.duration.getD "") = some d)
    (hgt : d > 180) :
    process_federated_video db o dl
      = ({ status := 400, message := "Duration exceeds limit" }, db, false) := by
  unfold process_federated_video
  rw [hnew]
  have hex : durationExceeds (parse_duration (o.duration.getD "")) 180 = true := by
    rw [hdur]
    unfold durationExceeds
    have h0 : d ≠ 0 := by omega
    simp [h0, hgt]
  dsimp only
  rw [hex]
  simp

/-- Witness for **C5**: duration `PT200S` against an empty store. -/
theorem c5_overlong_video_rejected_witness :
    process_federated_video { videos := [], activities := [], comments := [], followers := [] }
        { id := "V", objType := "Video", duration := some "PT200S", url := "u",
          inReplyTo := none }
        (Except.ok "path")
      = ({ status := 400, message := "Duration exceeds limit" },
         { videos := [], activities := [], comments := [], followers := [] }, false) :=
  c5_overlong_video_rejected _ _ _ 200 (by decide) (by decide) (by decide)

/-- C9 counterexample: `_parse_duration` accepts more than the exact
form `PT<digits>S`: Python `int()` accepts a sign, so `PT-5S` parses to
the integer `-5` even though it is not of that form. -/
theorem c9_counterexample :
    parse_duration "PT-5S" = some (-5) ∧ isStrictPTDigitsS "PT-5S" = false := by
  decide

/-- C9 (amended): `_parse_duration` returns an integer exactly for
strings `PT<int>S` whose middle is a valid Python integer literal
(optional whitespace, optional sign, underscores between digits) — hence
on `PT2M`, `PT1H`, a bare number, or an absent field it returns `None` —
and because the limit check `duration and duration > 180` fires only on a
truthy parsed value, a `Create(Video)` carrying such a duration string is
never rejected for exceeding the duration limit. -/
theorem c9_parse_duration_amended :
    (∀ s n, parse_duration s = some n →
      s.data.take 2 = ['P', 'T'] ∧ (s.data.drop 2).getLast? = some 'S'
        ∧ pyInt (String.mk (s.data.drop 2).dropLast) = some n)
    ∧ parse_duration "PT2M" = none
    ∧ parse_duration "PT1H" = none
    ∧ parse_duration "90" = none
    ∧ parse_duration "" = none
    ∧ (∀ db o dl, parse_duration (o.duration.getD "") = none →
        (process_federated_video db o dl).1.status ≠ 400) := by
  refine ⟨?_, by decide, by decide, by decide, by decide, ?_⟩
  · intro s n h
    unfold parse_duration at h
    cases hd : s.data with
    | nil =>
      rw [hd] at h
      exact absurd h (by simp)
    | cons c cs =>
      rw [hd] at h
      dsimp only at h
      by_cases h2 : (c :: cs).take 2 = ['P', 'T']
      · rw [if_pos h2] at h
        by_cases h3 : ((c :: cs).drop 2).getLast? = some 'S'
        · rw [if_pos h3] at h
          exact ⟨hd ▸ h2, hd ▸ h3, hd ▸ h⟩
        · rw [if_neg h3] at h
          exact absurd h (by simp)
      · rw [if_neg h2] at h
        exact absurd h (by simp)
  · intro db o dl hparse
    unfold process_federated_video
    cases hf : findVideo db o.id with
    | some v => simp
    | none =>
      have hde : durationExceeds (parse_duration (o.duration.getD "")) 180 = false := by
        rw [hparse]
        rfl
      dsimp only
      rw [hde]
      cases dl with
      | error e => simp
      | ok p => simp

/-- Witness for **C9 (amended)**: the soundness direction applied to
`PT90S`, and the never-rejected direction applied to a `PT2M` video. -/
theorem c9_parse_duration_amended_witness :
    ("PT90S" : String).data.take 2 = ['P', 'T']
    ∧ (process_federated_video
        { videos := [], activities := [], comments := [], followers := [] }
        { id := "V", objType := "Video", duration := some "PT2M", url := "u",
          inReplyTo := none } (Except.ok "p")).1.status ≠ 400 := by
  refine ⟨(c9_parse_duration_amended.1 "PT90S" 90 (by decide)).1, ?_⟩
  exact c9_parse_duration_amended.2.2.2.2.2
    { videos := [], activities := [], comments := [], followers := [] }
    { id := "V", objType := "Video", duration := some "PT2M", url := "u",
      inReplyTo := none } (Except.ok "p") (by decide)

theorem streamChunks_snd_le :
    ∀ (chunks : List Nat) (w : Nat), w ≤ maxDownloadSize →
      (streamChunks chunks w).2 ≤ maxDownloadSize := by
  intro chunks
  induction chunks with
  | nil => intro w hw; exact hw
  | cons c cs ih =>
    intro w hw
    unfold streamChunks
    by_cases hc : w + c > maxDownloadSize
    · rw [if_pos hc]
      exact hw
    · rw [if_neg hc]
      exact ih _ (by omega)

theorem streamChunks_ok_eq :
    ∀ (chunks : List Nat) (w v u : Nat), streamChunks chunks w = (some v, u) → v = u := by
  intro chunks
  induction chunks with
  | nil =>
    intro w v u h
    unfold streamChunks at h
    simp only [Prod.mk.injEq, Option.some.injEq] at h
    omega
  | cons c cs ih =>
    intro w v u h
    unfold streamChunks at h
    by_cases hc : w + c > maxDownloadSize
    · rw [if_pos hc] at h
      simp at h
    · rw [if_neg hc] at h
      exact ih _ _ _ h

theorem streamChunks_none_of_sum :
    ∀ (chunks : List Nat) (w : Nat), w ≤ maxDownloadSize →
      w + chunks.sum > maxDownloadSize → (streamChunks chunks w).1 = none := by
  intro chunks
  induction chunks with
  | nil =>
    intro w hw hsum
    simp at hsum
    omega
  | cons c cs ih =>
    intro w hw hsum
    unfold streamChunks
    by_cases hc : w + c > maxDownloadSize
    · rw [if_pos hc]
    · rw [if_neg hc]
      apply ih _ (by omega)
      simp [List.sum_cons] at hsum
      omega

/-- C6: The download enforces the 500 MB cap: a declared
`Content-Length` over the cap fails before any byte is written; streamed
bytes over the cap abort the transfer with the partial file deleted and
at most the cap ever on disk; after any failure no temp file remains; the
bytes on disk never exceed the cap; and the caller turns a download
failure into a plain 500 response with no record created. -/
theorem c6_download_cap_enforced :
    (∀ len chunks sf ds p, len > maxDownloadSize →
      download_federated_video (some len) true chunks sf ds p
        = (Except.error "File size exceeds limit", none, 0))
    ∧ (∀ cl chunks sf ds p,
        (∀ len, cl = some len → len ≤ maxDownloadSize) →
        chunks.sum > maxDownloadSize →
        download_federated_video cl true chunks sf ds p
          = (Except.error "File size exceeds limit during download", none,
             (streamChunks chunks 0).2)
          ∧ (streamChunks chunks 0).2 ≤ maxDownloadSize)
    ∧ (∀ cl ok chunks sf ds p e,
        (download_federated_video cl ok chunks sf ds p).1 = Except.error e →
        (download_federated_video cl ok chunks sf ds p).2.1 = none)
    ∧ (∀ cl ok chunks sf ds p,
        (download_federated_video cl ok chunks sf ds p).2.2 ≤ maxDownloadSize)
    ∧ (∀ db o e, findVideo db o.id = none →
        durationExceeds (parse_duration (o.duration.getD "")) 180 = false →
        process_federated_video db o (Except.error e)
          = ({ status := 500, message := "Failed to download video" }, db, true)) := by
  refine ⟨?_, ?_, ?_, ?_, ?_⟩
  · intro len chunks sf ds p hlen
    unfold download_federated_video
    simp [hlen]
  · intro cl chunks sf ds p hcl hsum
    have hle := streamChunks_snd_le chunks 0 (by simp [maxDownloadSize])
    have hnone : (streamChunks chunks 0).1 = none :=
      streamChunks_none_of_sum chunks 0 (by simp [maxDownloadSize]) (by omega)
    refine ⟨?_, hle⟩
    unfold download_federated_video
    cases hsc : streamChunks chunks 0 with
    | mk fst snd =>
      cases fst with
      | some w =>
        rw [hsc] at hnone
        simp at hnone
      | none =>
        cases cl with
        | none => simp
        | some len =>
          have hlen := hcl len rfl
          have hd : decide (len > maxDownloadSize) = false :=
            decide_eq_false (by omega)
          simp [hd]
  · intro cl ok chunks sf ds p e h
    unfold download_federated_video at h ⊢
    cases ok with
    | false => rfl
    | true =>
      cases hsc : streamChunks chunks 0 with
      | mk fst snd =>
        rw [hsc] at h
        cases cl with
        | none =>
          simp only at h ⊢
          cases fst with
          | none => simp
          | some w =>
            cases sf with
            | true => simp
            | false =>
              by_cases hde : durationExceeds (parse_duration (ds.getD "")) 180 = true
              · simp [hde]
              · rw [Bool.not_eq_true] at hde
                simp [hde] at h
        | some len =>
          by_cases hlen : len > maxDownloadSize
          · simp [hlen]
          · have hd : decide (len > maxDownloadSize) = false :=
              decide_eq_false (by omega)
            simp only [hd] at h ⊢
            cases fst with
            | none => simp
            | some w =>
              cases sf with
              | true => simp
              | false =>
                by_cases hde : durationExceeds (parse_duration (ds.getD "")) 180 = true
                · simp [hde]
                · rw [Bool.not_eq_true] at hde
                  simp [hde] at h
  · intro cl ok chunks sf ds p
    unfold download_federated_video
    cases ok with
    | false => simp [maxDownloadSize]
    | true =>
      have hle := streamChunks_snd_le chunks 0 (by simp [maxDownloadSize])
      cases hsc : streamChunks chunks 0 with
      | mk fst snd =>
        rw [hsc] at hle
        have hbound : snd ≤ maxDownloadSize := hle
        have hcase : ∀ w, fst = some w → w = snd := by
          intro w hw
          exact streamChunks_ok_eq chunks 0 w snd (hw ▸ hsc)
        cases cl with
        | none =>
          cases fst with
          | none => simpa using hbound
          | some w =>
            have hw : w = snd := hcase w rfl
            cases sf with
            | true => simpa [hw] using hbound
            | false =>
              by_cases hde : durationExceeds (parse_duration (ds.getD "")) 180 = true
              · simpa [hde, hw] using hbound
              · rw [Bool.not_eq_true] at hde
                simpa [hde, hw] using hbound
        | some len =>
          by_cases hlen : len > maxDownloadSize
          · simp only [maxDownloadSize] at hlen ⊢
            have hd : decide (len > 500 * 1024 * 1024) = true := by
              simpa using hlen
            simp [hd]
          · have hd : decide (len > maxDownloadSize) = false :=
              decide_eq_false (by omega)
            simp only [hd]
            cases fst with
            | none => simpa using hbound
            | some w =>
              have hw : w = snd := hcase w rfl
              cases sf with
              | true => simpa [hw] using hbound
              | false =>
                by_cases hde : durationExceeds (parse_duration (ds.getD "")) 180 = true
                · simpa [hde, hw] using hbound
                · rw [Bool.not_eq_true] at hde
                  simpa [hde, hw] using hbound
  · intro db o e hnew hde
    unfold process_federated_video
    rw [hnew]
    dsimp only
    rw [hde]
    simp

/-- Witness for **C6** at concrete downloads: an oversized declaration, an
overrunning stream, a failed connection, an in-budget stream, and the
caller's 500 on a failed download. -/
theorem c6_download_cap_enforced_witness :
    download_federated_video (some 524288001) true [] false none "f.mp4"
      = (Except.error "File size exceeds limit", none, 0)
    ∧ download_federated_video none true [300000000, 300000000] false none "f.mp4"
      = (Except.error "File size exceeds limit during download", none,
         (streamChunks [300000000, 300000000] 0).2)
    ∧ (download_federated_video none false [] false none "f.mp4").2.1 = none
    ∧ (download_federated_video none true [1000] false none "f.mp4").2.2
        ≤ maxDownloadSize
    ∧ process_federated_video
        { videos := [], activities := [], comments := [], followers := [] }
        { id := "V", objType := "Video", duration := none, url := "u", inReplyTo := none }
        (Except.error "network error")
      = ({ status := 500, message := "Failed to download video" },
         { videos := [], activities := [], comments := [], followers := [] }, true) := by
  have h := c6_download_cap_enforced
  refine ⟨h.1 524288001 [] false none "f.mp4" (by decide),
    (h.2.1 none [300000000, 300000000] false none "f.mp4"
      (fun len hl => nomatch hl) (by decide)).1,
    h.2.2.1 none false [] false none "f.mp4" "HTTP error" (by rfl),
    h.2.2.2.1 none true [1000] false none "f.mp4",
    h.2.2.2.2 _ _ "network error" (by rfl) (by rfl)⟩

/-- An update that preserves the `activitypub_id` commutes with the lookup
by that id. -/
theorem findVideo_updateVideo (db : DB) (apId : String) (f : VideoRec → VideoRec)
    (hpres : ∀ v, (f v).apId = v.apId) :
    findVideo (updateVideo db apId f) apId
      = (findVideo db apId).map (fun v => if v.apId == apId then f v else v) := by
  unfold findVideo updateVideo
  rw [List.find?_map]
  have hp : ((fun v : VideoRec => v.apId == apId) ∘
      fun v => if v.apId == apId then f v else v)
      = fun v : VideoRec => v.apId == apId := by
    funext v
    by_cases hv : v.apId == apId
    · simp only [Function.comp_apply, if_pos hv, hpres]
    · simp only [Function.comp_apply]
      rw [if_neg (by simpa using hv)]
  rw [hp]

theorem updateVideo_activities (db : DB) (apId : String) (f : VideoRec → VideoRec) :
    (updateVideo db apId f).activities = db.activities := rfl

/-- C7: A `Like` (resp. `Announce`) on an absent target answers 404
with no change; on a present target with a fresh activity id it increments
the like (resp. share) counter by exactly one and recomputes the stored
engagement score, so that afterwards
`engagement_score = 2·likes + 3·comments + 4·shares + 0.1·views` holds
exactly over the rationals. -/
theorem c7_like_announce_engagement (db : DB) (act : InActivity) (v : VideoRec) :
    (findVideo db act.obj.idOf = none →
      process_like_activity db act = ({ status := 404, message := "Video not found" }, db)
      ∧ process_announce_activity db act
          = ({ status := 404, message := "Video not found" }, db))
    ∧ (findVideo db act.obj.idOf = some v → activityExists db act.id = false →
        ((process_like_activity db act).1.status = 200
          ∧ ∃ v2, findVideo (process_like_activity db act).2 act.obj.idOf = some v2
              ∧ v2.likeCount = v.likeCount + 1
              ∧ v2.commentCount = v.commentCount
              ∧ v2.shareCount = v.shareCount
              ∧ v2.viewCount = v.viewCount
              ∧ v2.engagementScore
                  = (v2.likeCount : ℚ) * 2 + (v2.commentCount : ℚ) * 3
                    + (v2.shareCount : ℚ) * 4 + (v2.viewCount : ℚ) * (1 / 10))
        ∧ ((process_announce_activity db act).1.status = 200
          ∧ ∃ v2, findVideo (process_announce_activity db act).2 act.obj.idOf = some v2
              ∧ v2.shareCount = v.shareCount + 1
              ∧ v2.commentCount = v.commentCount
              ∧ v2.likeCount = v.likeCount
              ∧ v2.viewCount = v.viewCount
              ∧ v2.engagementScore
                  = (v2.likeCount : ℚ) * 2 + (v2.commentCount : ℚ) * 3
                    + (v2.shareCount : ℚ) * 4 + (v2.viewCount : ℚ) * (1 / 10))) := by
  constructor
  · intro hnone
    unfold process_like_activity process_announce_activity
    dsimp only
    rw [hnone]
    exact ⟨rfl, rfl⟩
  · intro hsome hfresh
    have hveq : v.apId == act.obj.idOf := by
      have := List.find?_some (by simpa [findVideo] using hsome)
      simpa using this
    constructor
    · unfold process_like_activity
      dsimp only
      rw [hsome, hfresh, if_neg Bool.false_ne_true]
      refine ⟨rfl, ?_⟩
      rw [findVideo_updateVideo db act.obj.idOf, hsome]
      · refine ⟨_, rfl, ?_⟩
        simp only [hveq, eq_self_iff_true, if_true]
        refine ⟨trivial, trivial, trivial, trivial, ?_⟩
        unfold engagementScoreOf
        norm_num
      · intro w
        rfl
    · unfold process_announce_activity
      dsimp only
      rw [hsome, hfresh, if_neg Bool.false_ne_true]
      refine ⟨rfl, ?_⟩
      rw [findVideo_updateVideo db act.obj.idOf, hsome]
      · refine ⟨_, rfl, ?_⟩
        simp only [hveq, eq_self_iff_true, if_true]
        refine ⟨trivial, trivial, trivial, trivial, ?_⟩
        unfold engagementScoreOf
        norm_num
      · intro w
        rfl

/-- Witness for **C7**: one stored video, a fresh Like against it, and the
404 branch against an empty store. -/
theorem c7_like_announce_engagement_witness :
    (process_like_activity
        { videos := [{ apId := "V", likeCount := 0, commentCount := 2, shareCount := 0,
                       viewCount := 10, engagementScore := 7 }],
          activities := [], comments := [], followers := [] }
        { id := "A1", activityType := "Like", actor := "a", obj := ObjField.str "V",
          target := none }).1.status = 200
    ∧ process_like_activity
        { videos := [], activities := [], comments := [], followers := [] }
        { id := "A1", activityType := "Like", actor := "a", obj := ObjField.str "V",
          target := none }
      = ({ status := 404, message := "Video not found" },
         { videos := [], activities := [], comments := [], followers := [] }) := by
  constructor
  · exact ((c7_like_announce_engagement _ _
      { apId := "V", likeCount := 0, commentCount := 2, shareCount := 0,
        viewCount := 10, engagementScore := 7 }).2 (by decide) (by decide)).1.1
  · exact ((c7_like_announce_engagement _
      { id := "A1", activityType := "Like", actor := "a", obj := ObjField.str "V",
        target := none }
      { apId := "V", likeCount := 0, commentCount := 2, shareCount := 0,
        viewCount := 10, engagementScore := 7 }).1 (by decide)).1

/-- C3 counterexample: Starting from `attempts = 0`, the first four
transient failures schedule retries at offsets 1, 5, 15 and 60 minutes,
but the *fifth* failure does not schedule the claimed 240-minute retry:
`attempts` reaches `max_attempts` and the record goes terminally `failed`
with `next_retry_at = None`; the 240-minute entry of the delay table is
never used. -/
theorem c3_counterexample :
    (c3FailStep^[1] c3Start).nextRetryAt = some 1
    ∧ (c3FailStep^[2] c3Start).nextRetryAt = some 5
    ∧ (c3FailStep^[3] c3Start).nextRetryAt = some 15
    ∧ (c3FailStep^[4] c3Start).nextRetryAt = some 60
    ∧ (c3FailStep^[5] c3Start).status = "failed"
    ∧ (c3FailStep^[5] c3Start).nextRetryAt = none
    ∧ (c3FailStep^[5] c3Start).nextRetryAt ≠ some 240 := by
  decide

/-- C3 (amended): With the owning activity and key material present:
a transient failure with `attempts + 1 < 5` increments `attempts`, leaves
the status untouched and schedules the retry `delays[attempts]` minutes
after the attempt (offsets 1, 5, 15, 60 for the first four failures); the
failure that reaches `attempts = 5` sets `failed` with
`next_retry_at = None` terminally — the 240-minute delay is dead; a 2xx
at any attempt sets `delivered` with `next_retry_at = None`, and the
sweep selects only `pending` records, so both outcomes are terminal. -/
theorem c3_retry_schedule_amended :
    (∀ now r msg, r.attempts + 1 < DELIVERY_RETRY_ATTEMPTS →
      (process_delivery_record true true (DeliveryOutcome.failure msg) now r).2
        = { r with
              attempts := r.attempts + 1, lastAttemptAt := some now,
              errorMessage := some msg,
              nextRetryAt := some (now + DELIVERY_RETRY_DELAYS_MIN.getD r.attempts 0) })
    ∧ (∀ now r msg, r.attempts + 1 ≥ DELIVERY_RETRY_ATTEMPTS →
      (process_delivery_record true true (DeliveryOutcome.failure msg) now r).2
        = { r with
              attempts := r.attempts + 1, lastAttemptAt := some now,
              errorMessage := some msg, status := "failed", nextRetryAt := none })
    ∧ (∀ now r,
      (process_delivery_record true true DeliveryOutcome.success now r).2
        = { r with
              attempts := r.attempts + 1, lastAttemptAt := some now,
              status := "delivered", nextRetryAt := none })
    ∧ (∀ now r, r.status = "delivered" ∨ r.status = "failed" →
        sweepSelects now r = false) := by
  refine ⟨?_, ?_, ?_, ?_⟩
  · intro now r msg hlt
    unfold process_delivery_record
    dsimp only
    rw [if_neg (by omega : ¬(r.attempts + 1 ≥ DELIVERY_RETRY_ATTEMPTS))]
    simp [Nat.add_sub_cancel]
  · intro now r msg hge
    unfold process_delivery_record
    dsimp only
    rw [if_pos (by omega : r.attempts + 1 ≥ DELIVERY_RETRY_ATTEMPTS)]
    simp
  · intro now r
    unfold process_delivery_record
    rfl
  · intro now r hterm
    unfold sweepSelects
    rcases hterm with h | h <;> simp [h]

/-- Witness for **C3 (amended)**: the four schedule offsets, the terminal
fifth failure, a delivery, and the sweep ignoring both terminal states. -/
theorem c3_retry_schedule_amended_witness :
    (process_delivery_record true true (DeliveryOutcome.failure "503") 7 c3Start).2
      = { c3Start with
            attempts := 1, lastAttemptAt := some 7,
            errorMessage := some "503", nextRetryAt := some 8 }
    ∧ (process_delivery_record true true (DeliveryOutcome.failure "503") 7
        (c3FailStep^[4] c3Start)).2
      = { (c3FailStep^[4] c3Start) with
            attempts := 5, lastAttemptAt := some 7,
            errorMessage := some "503", status := "failed", nextRetryAt := none }
    ∧ (process_delivery_record true true DeliveryOutcome.success 7 c3Start).2
      = { c3Start with
            attempts := 1, lastAttemptAt := some 7,
            status := "delivered", nextRetryAt := none }
    ∧ sweepSelects 99 { c3Start with status := "delivered" } = false := by
  have h := c3_retry_schedule_amended
  refine ⟨?_, ?_, h.2.2.1 7 c3Start, h.2.2.2 99 _ (Or.inl rfl)⟩
  · have := h.1 7 c3Start "503" (by decide)
    rw [this]
    decide
  · have := h.2.1 7 (c3FailStep^[4] c3Start) "503" (by decide)
    rw [this]
    decide

theorem filter_status_partition :
    ∀ rs : List DeliveryRec, (∀ r ∈ rs, validDeliveryStatus r = true) →
      (rs.filter (fun r => r.status == "delivered")).length
        + (rs.filter (fun r => r.status == "pending")).length
        + (rs.filter (fun r => r.status == "failed")).length
      = rs.length := by
  intro rs
  induction rs with
  | nil => intro _; rfl
  | cons r t ih =>
    intro hall
    have hr := hall r (List.mem_cons_self _ _)
    have ht : ∀ x ∈ t, validDeliveryStatus x = true :=
      fun x hx => hall x (List.mem_cons_of_mem _ hx)
    have hih := ih ht
    unfold validDeliveryStatus at hr
    simp only [Bool.or_eq_true, beq_iff_eq] at hr
    rcases hr with (h | h) | h <;>
      simp [List.filter_cons, h] <;> omega

/-- C10: Delivery records are created `pending` and only ever
reassigned to `delivered` or `failed` by `process_delivery_record`, so the
three statuses partition the records of an activity and
`get_delivery_stats` satisfies `delivered + pending + failed = total`. -/
theorem c10_delivery_status_partition :
    (∀ aid urls now, ∀ r ∈ create_delivery_tasks aid urls now, r.status = "pending")
    ∧ (∀ af uf outcome now r, validDeliveryStatus r = true →
        validDeliveryStatus (process_delivery_record af uf outcome now r).2 = true)
    ∧ (∀ records aid, (∀ r ∈ records, validDeliveryStatus r = true) →
        (get_delivery_stats records aid).2.1 + (get_delivery_stats records aid).2.2.1
          + (get_delivery_stats records aid).2.2.2
        = (get_delivery_stats records aid).1) := by
  refine ⟨?_, ?_, ?_⟩
  · intro aid urls now r hr
    unfold create_delivery_tasks at hr
    obtain ⟨u, _, hu⟩ := List.mem_map.mp hr
    rw [← hu]
  · intro af uf outcome now r hr
    unfold process_delivery_record
    cases af with
    | false => rfl
    | true =>
      cases uf with
      | false => rfl
      | true =>
        cases outcome with
        | success => rfl
        | failure msg =>
          dsimp only
          by_cases hge : r.attempts + 1 ≥ DELIVERY_RETRY_ATTEMPTS
          · rw [if_pos hge]
            rfl
          · rw [if_neg hge]
            exact hr
  · intro records aid hall
    unfold get_delivery_stats
    dsimp only
    apply filter_status_partition
    intro r hr
    exact hall r (List.mem_of_mem_filter hr)

/-- Witness for **C10** on a concrete record set. -/
theorem c10_delivery_status_partition_witness :
    validDeliveryStatus (process_delivery_record true true DeliveryOutcome.success 3 c3Start).2
      = true
    ∧ (get_delivery_stats [c3Start, { c3Start with status := "failed" }] 1).2.1
        + (get_delivery_stats [c3Start, { c3Start with status := "failed" }] 1).2.2.1
        + (get_delivery_stats [c3Start, { c3Start with status := "failed" }] 1).2.2.2
      = (get_delivery_stats [c3Start, { c3Start with status := "failed" }] 1).1 := by
  refine ⟨c10_delivery_status_partition.2.1 true true DeliveryOutcome.success 3 c3Start
    (by decide), ?_⟩
  exact c10_delivery_status_partition.2.2 [c3Start, { c3Start with status := "failed" }] 1
    (by decide)

/-- C2 counterexample:  Processing the same string-object `Like` twice
increments the like counter twice and stores zero Activity rows: for a
bare-string `object`, `store_activity` computes
`activity.get("object", {}).get("id", "")`, raising `AttributeError`,
which its `except` turns into rollback-and-`None`; since the Like
idempotency gate reads the Activity table, it never fires.  The claim's
"exactly one stored Activity" and "counter applied exactly once" both
fail, even though each submission answers 200. -/
theorem c2_counterexample :
    ((handle_activity (handle_activity c2Db0 c2LikeAct (Except.ok "p")).2.1 c2LikeAct
        (Except.ok "p")).2.1.videos.map (fun v => v.likeCount)) = [2]
    ∧ countActivities
        (handle_activity (handle_activity c2Db0 c2LikeAct (Except.ok "p")).2.1 c2LikeAct
          (Except.ok "p")).2.1 c2LikeAct.id = 0
    ∧ (handle_activity (handle_activity c2Db0 c2LikeAct (Except.ok "p")).2.1 c2LikeAct
        (Except.ok "p")).1.status = 200 := by
  decide

theorem store_exists_eq {db : DB} {act : InActivity} {o : APObject} (il : Bool)
    (hobj : act.obj = ObjField.obj o) (he : activityExists db act.id = true) :
    (store_activity db act il).2 = db := by
  unfold store_activity
  rw [hobj]
  dsimp only
  rw [show activityExistsIn db.activities act.id = true from he]
  rfl

theorem store_new_eq {db : DB} {act : InActivity} {o : APObject} (il : Bool)
    (hobj : act.obj = ObjField.obj o) (he : activityExists db act.id = false) :
    (store_activity db act il).2
      = { db with activities := db.activities ++ [storeRec act o il] } := by
  unfold store_activity
  rw [hobj]
  dsimp only
  rw [show activityExistsIn db.activities act.id = false from he]
  rfl

theorem store_tables (db : DB) (act : InActivity) (il : Bool) :
    (store_activity db act il).2.videos = db.videos
    ∧ (store_activity db act il).2.comments = db.comments
    ∧ (store_activity db act il).2.followers = db.followers := by
  unfold store_activity
  cases hobj : act.obj with
  | str s => exact ⟨rfl, rfl, rfl⟩
  | obj o =>
    dsimp only
    cases he : activityExistsIn db.activities act.id with
    | true => exact ⟨rfl, rfl, rfl⟩
    | false => exact ⟨rfl, rfl, rfl⟩

theorem findVideo_store (db : DB) (act : InActivity) (il : Bool) (x : String) :
    findVideo (store_activity db act il).2 x = findVideo db x := by
  unfold findVideo
  rw [(store_tables db act il).1]

theorem activityExists_store {db : DB} {act : InActivity} {o : APObject} (il : Bool)
    (hobj : act.obj = ObjField.obj o) :
    activityExists (store_activity db act il).2 act.id = true := by
  by_cases he : activityExists db act.id = true
  · rw [store_exists_eq il hobj he]
    exact he
  · rw [Bool.not_eq_true] at he
    rw [store_new_eq il hobj he]
    unfold activityExists activityExistsIn at he ⊢
    simp [List.any_append, storeRec]

theorem count_zero_of_not_exists {db : DB} {aid : String}
    (he : activityExists db aid = false) : countActivities db aid = 0 := by
  unfold countActivities
  unfold activityExists activityExistsIn at he
  rw [List.any_eq_false] at he
  rw [List.filter_eq_nil_iff.mpr he]
  rfl

theorem count_pos_of_exists {db : DB} {aid : String}
    (he : activityExists db aid = true) : 1 ≤ countActivities db aid := by
  unfold countActivities
  unfold activityExists activityExistsIn at he
  rw [List.any_eq_true] at he
  obtain ⟨a, ha, hpa⟩ := he
  have : a ∈ db.activities.filter (fun a => a.activityId == aid) :=
    List.mem_filter.mpr ⟨ha, hpa⟩
  exact List.length_pos.mpr (fun hnil => by simp [hnil] at this)

theorem count_store_one {db : DB} {act : InActivity} {o : APObject} (il : Bool)
    (hobj : act.obj = ObjField.obj o) (hwf : countActivities db act.id ≤ 1) :
    countActivities (store_activity db act il).2 act.id = 1 := by
  by_cases he : activityExists db act.id = true
  · rw [store_exists_eq il hobj he]
    have := count_pos_of_exists he
    omega
  · rw [Bool.not_eq_true] at he
    rw [store_new_eq il hobj he]
    have h0 := count_zero_of_not_exists he
    unfold countActivities at h0 ⊢
    simp [List.filter_append, storeRec, h0]

theorem count_store_exists {db : DB} {act : InActivity} {il : Bool}
    (he : activityExists db act.id = true) :
    (store_activity db act il).2 = db := by
  unfold store_activity
  cases hobj : act.obj with
  | str s => rfl
  | obj o =>
    dsimp only
    rw [show activityExistsIn db.activities act.id = true from he]
    rfl

/-! Branch equations for the five handlers. -/

theorem like_404 {db : DB} {act : InActivity}
    (h : findVideo db act.obj.idOf = none) :
    process_like_activity db act = ({ status := 404, message := "Video not found" }, db) := by
  unfold process_like_activity
  dsimp only
  rw [h]

theorem like_dup {db : DB} {act : InActivity} {v : VideoRec}
    (hf : findVideo db act.obj.idOf = some v) (he : activityExists db act.id = true) :
    process_like_activity db act
      = ({ status := 200, message := "Like already processed" }, db) := by
  unfold process_like_activity
  dsimp only
  rw [hf, he]
  rfl

theorem like_new {db : DB} {act : InActivity} {v : VideoRec}
    (hf : findVideo db act.obj.idOf = some v) (he : activityExists db act.id = false) :
    process_like_activity db act
      = ({ status := 200, message := "Like processed" },
         updateVideo db act.obj.idOf (fun w =>
           { w with
             likeCount := w.likeCount + 1,
             engagementScore :=
               engagementScoreOf (w.likeCount + 1) w.commentCount w.shareCount
                 w.viewCount })) := by
  unfold process_like_activity
  dsimp only
  rw [hf, he]
  rfl

theorem announce_404 {db : DB} {act : InActivity}
    (h : findVideo db act.obj.idOf = none) :
    process_announce_activity db act
      = ({ status := 404, message := "Video not found" }, db) := by
  unfold process_announce_activity
  dsimp only
  rw [h]

theorem announce_dup {db : DB} {act : InActivity} {v : VideoRec}
    (hf : findVideo db act.obj.idOf = some v) (he : activityExists db act.id = true) :
    process_announce_activity db act
      = ({ status := 200, message := "Announce already processed" }, db) := by
  unfold process_announce_activity
  dsimp only
  rw [hf, he]
  rfl

theorem announce_new {db : DB} {act : InActivity} {v : VideoRec}
    (hf : findVideo db act.obj.idOf = some v) (he : activityExists db act.id = false) :
    process_announce_activity db act
      = ({ status := 200, message := "Announce processed" },
         updateVideo db act.obj.idOf (fun w =>
           { w with
             shareCount := w.shareCount + 1,
             engagementScore :=
               engagementScoreOf w.likeCount w.commentCount (w.shareCount + 1)
                 w.viewCount })) := by
  unfold process_announce_activity
  dsimp only
  rw [hf, he]
  rfl

theorem delete_404 {db : DB} {act : InActivity}
    (h : findVideo db act.obj.idOf = none) :
    process_delete_activity db act
      = ({ status := 404, message := "Video not found" }, db) := by
  unfold process_delete_activity
  dsimp only
  rw [h]

theorem delete_found {db : DB} {act : InActivity} {v : VideoRec}
    (hf : findVideo db act.obj.idOf = some v) :
    process_delete_activity db act
      = ({ status := 200, message := "Video deleted" },
         { db with videos := db.videos.filter (fun w => !(w.apId == act.obj.idOf)) }) := by
  unfold process_delete_activity
  dsimp only
  rw [hf]

theorem move_no_target (db : DB) (act : InActivity)
    (h : act.target.getD "" = "") :
    process_move_activity db act = ({ status := 400, message := "Missing target" }, db) := by
  unfold process_move_activity
  dsimp only
  rw [if_pos h]

theorem move_ok (db : DB) (act : InActivity)
    (h : ¬act.target.getD "" = "") :
    process_move_activity db act
      = ({ status := 200, message := "Move processed" },
         { db with followers := db.followers.map (fun f =>
            if f.followerActor == act.actor then
              { f with followerActor := act.target.getD "" } else f) }) := by
  unfold process_move_activity
  dsimp only
  rw [if_neg h]

theorem comment_400 {db : DB} {o : APObject}
    (h : o.inReplyTo.getD "" = "") :
    process_federated_comment db o
      = ({ status := 400, message := "Note must be in reply to a video" }, db) := by
  unfold process_federated_comment
  dsimp only
  rw [if_pos h]

theorem comment_404 {db : DB} {o : APObject}
    (hne : ¬o.inReplyTo.getD "" = "")
    (hf : findVideo db (o.inReplyTo.getD "") = none) :
    process_federated_comment db o
      = ({ status := 404, message := "Video not found" }, db) := by
  unfold process_federated_comment
  dsimp only
  rw [if_neg hne, hf]

theorem comment_dup {db : DB} {o : APObject} {v : VideoRec}
    (hne : ¬o.inReplyTo.getD "" = "")
    (hf : findVideo db (o.inReplyTo.getD "") = some v)
    (hc : db.comments.any (fun c => c.apId == o.id) = true) :
    process_federated_comment db o
      = ({ status := 200, message := "Comment already processed" }, db) := by
  unfold process_federated_comment
  dsimp only
  rw [if_neg hne, hf, hc]
  rfl

theorem comment_new {db : DB} {o : APObject} {v : VideoRec}
    (hne : ¬o.inReplyTo.getD "" = "")
    (hf : findVideo db (o.inReplyTo.getD "") = some v)
    (hc : db.comments.any (fun c => c.apId == o.id) = false) :
    process_federated_comment db o
      = ({ status := 200, message := "Comment processed" },
         updateVideo
           { db with comments := db.comments ++
              [{ apId := o.id, videoApId := o.inReplyTo.getD "" }] }
           (o.inReplyTo.getD "")
           (fun w => { w with commentCount := w.commentCount + 1 })) := by
  unfold process_federated_comment
  dsimp only
  rw [if_neg hne, hf, hc]
  rfl

theorem pfv_exists {db : DB} {o : APObject} {dl : Except String String} {v : VideoRec}
    (hf : findVideo db o.id = some v) :
    process_federated_video db o dl
      = ({ status := 200, message := "Video already processed" }, db, false) := by
  unfold process_federated_video
  rw [hf]

theorem pfv_reject {db : DB} {o : APObject} {dl : Except String String}
    (hf : findVideo db o.id = none)
    (hd : durationExceeds (parse_duration (o.duration.getD "")) 180 = true) :
    process_federated_video db o dl
      = ({ status := 400, message := "Duration exceeds limit" }, db, false) := by
  unfold process_federated_video
  rw [hf]
  dsimp only
  rw [hd]
  simp

theorem pfv_dlerr {db : DB} {o : APObject} {e : String}
    (hf : findVideo db o.id = none)
    (hd : durationExceeds (parse_duration (o.duration.getD "")) 180 = false) :
    process_federated_video db o (Except.error e)
      = ({ status := 500, message := "Failed to download video" }, db, true) := by
  unfold process_federated_video
  rw [hf]
  dsimp only
  rw [hd]
  simp

theorem pfv_ok {db : DB} {o : APObject} {p : String}
    (hf : findVideo db o.id = none)
    (hd : durationExceeds (parse_duration (o.duration.getD "")) 180 = false) :
    process_federated_video db o (Except.ok p)
      = ({ status := 202, message := "Video accepted for processing" },
         { db with videos := db.videos ++ [newVideoRec o] }, true) := by
  unfold process_federated_video
  rw [hf]
  dsimp only
  rw [hd]
  simp [newVideoRec]

theorem create_str {db : DB} {act : InActivity} {dl : Except String String} {s : String}
    (hobj : act.obj = ObjField.str s) :
    process_create_activity db act dl
      = ({ status := 500, message := "Failed to process Create activity" }, db, false) := by
  unfold process_create_activity
  rw [hobj]

theorem create_video {db : DB} {act : InActivity} {dl : Except String String}
    {o : APObject} (hobj : act.obj = ObjField.obj o) (ht : o.objType = "Video") :
    process_create_activity db act dl = process_federated_video db o dl := by
  unfold process_create_activity
  rw [hobj]
  dsimp only
  rw [if_pos ht]

theorem create_note {db : DB} {act : InActivity} {dl : Except String String}
    {o : APObject} (hobj : act.obj = ObjField.obj o) (ht : o.objType = "Note") :
    process_create_activity db act dl
      = ((process_federated_comment db o).1, (process_federated_comment db o).2,
         false) := by
  unfold process_create_activity
  rw [hobj]
  dsimp only
  rw [if_neg (by simp [ht]), if_pos ht]

theorem create_other {db : DB} {act : InActivity} {dl : Except String String}
    {o : APObject} (hobj : act.obj = ObjField.obj o)
    (h1 : ¬o.objType = "Video") (h2 : ¬o.objType = "Note") :
    process_create_activity db act dl
      = ({ status := 400, message := "Unsupported object type" }, db, false) := by
  unfold process_create_activity
  rw [hobj]
  dsimp only
  rw [if_neg h1, if_neg h2]

/-! Dispatch equations for `handle_activity`. -/

theorem handle_eq_create {db : DB} {act : InActivity} {dl : Except String String}
    (hk : act.activityType = "Create") :
    handle_activity db act dl
      = ((process_create_activity db act dl).1,
         (store_activity (process_create_activity db act dl).2.1 act false).2,
         (process_create_activity db act dl).2.2) := by
  unfold handle_activity
  rw [hk]
  simp

theorem handle_eq_like {db : DB} {act : InActivity} {dl : Except String String}
    (hk : act.activityType = "Like") :
    handle_activity db act dl
      = ((process_like_activity db act).1,
         (store_activity (process_like_activity db act).2 act false).2, false) := by
  unfold handle_activity
  rw [hk]
  simp

theorem handle_eq_announce {db : DB} {act : InActivity} {dl : Except String String}
    (hk : act.activityType = "Announce") :
    handle_activity db act dl
      = ((process_announce_activity db act).1,
         (store_activity (process_announce_activity db act).2 act false).2, false) := by
  unfold handle_activity
  rw [hk]
  simp

theorem handle_eq_delete {db : DB} {act : InActivity} {dl : Except String String}
    (hk : act.activityType = "Delete") :
    handle_activity db act dl
      = ((process_delete_activity db act).1,
         (store_activity (process_delete_activity db act).2 act false).2, false) := by
  unfold handle_activity
  rw [hk]
  simp

theorem handle_eq_move {db : DB} {act : InActivity} {dl : Except String String}
    (hk : act.activityType = "Move") :
    handle_activity db act dl
      = ((process_move_activity db act).1,
         (store_activity (process_move_activity db act).2 act false).2, false) := by
  unfold handle_activity
  rw [hk]
  simp

theorem c2_like_case (db : DB) (act : InActivity) (dl : Except String String)
    (o : APObject) (hobj : act.obj = ObjField.obj o)
    (hk : act.activityType = "Like") (hwf : countActivities db act.id ≤ 1) :
    C2Conc db act dl := by
  unfold C2Conc
  cases hf : findVideo db act.obj.idOf with
  | none =>
    have hp1 := like_404 hf
    have hdb1 : (handle_activity db act dl).2.1 = (store_activity db act false).2 := by
      rw [handle_eq_like hk, hp1]
    have hfv1 : findVideo (store_activity db act false).2 act.obj.idOf = none := by
      rw [findVideo_store]
      exact hf
    have hp2 := like_404 hfv1
    have hex1 : activityExists (store_activity db act false).2 act.id = true :=
      activityExists_store false hobj
    refine ⟨?_, ?_, ?_⟩
    · rw [hdb1, handle_eq_like hk, hp2]
      exact count_store_exists hex1
    · rw [hdb1]
      exact count_store_one false hobj hwf
    · intro hr1
      exfalso
      rw [handle_eq_like hk, hp1] at hr1
      simp at hr1
  | some v =>
    by_cases he : activityExists db act.id = true
    · have hp1 := like_dup hf he
      have hdb1 : (handle_activity db act dl).2.1 = db := by
        rw [handle_eq_like hk, hp1]
        exact count_store_exists he
      refine ⟨?_, ?_, ?_⟩
      · rw [hdb1]
        exact hdb1
      · rw [hdb1]
        have := count_pos_of_exists he
        omega
      · intro _
        rw [hdb1, handle_eq_like hk, hp1, hk]
        simp
    · rw [Bool.not_eq_true] at he
      have hp1 := like_new hf he
      have heU : activityExists
          (updateVideo db act.obj.idOf (fun w =>
            { w with
              likeCount := w.likeCount + 1,
              engagementScore :=
                engagementScoreOf (w.likeCount + 1) w.commentCount w.shareCount
                  w.viewCount })) act.id = false := he
      have hdb1 : (handle_activity db act dl).2.1
          = (store_activity
              (updateVideo db act.obj.idOf (fun w =>
                { w with
                  likeCount := w.likeCount + 1,
                  engagementScore :=
                    engagementScoreOf (w.likeCount + 1) w.commentCount w.shareCount
                      w.viewCount })) act false).2 := by
        rw [handle_eq_like hk, hp1]
      have hfv1 : ∃ v2, findVideo (handle_activity db act dl).2.1 act.obj.idOf = some v2 := by
        rw [hdb1, findVideo_store, findVideo_updateVideo db act.obj.idOf, hf]
        · exact ⟨_, rfl⟩
        · intro w
          rfl
      obtain ⟨v2, hfv1⟩ := hfv1
      have hex1 : activityExists (handle_activity db act dl).2.1 act.id = true := by
        rw [hdb1]
        exact activityExists_store false hobj
      have hp2 := like_dup hfv1 hex1
      refine ⟨?_, ?_, ?_⟩
      · rw [handle_eq_like hk, hp2]
        exact count_store_exists hex1
      · rw [hdb1]
        exact count_store_one false hobj hwf
      · intro _
        rw [handle_eq_like hk, hp2, hk]
        simp

theorem c2_announce_case (db : DB) (act : InActivity) (dl : Except String String)
    (o : APObject) (hobj : act.obj = ObjField.obj o)
    (hk : act.activityType = "Announce") (hwf : countActivities db act.id ≤ 1) :
    C2Conc db act dl := by
  unfold C2Conc
  cases hf : findVideo db act.obj.idOf with
  | none =>
    have hp1 := announce_404 hf
    have hdb1 : (handle_activity db act dl).2.1 = (store_activity db act false).2 := by
      rw [handle_eq_announce hk, hp1]
    have hfv1 : findVideo (store_activity db act false).2 act.obj.idOf = none := by
      rw [findVideo_store]
      exact hf
    have hp2 := announce_404 hfv1
    have hex1 : activityExists (store_activity db act false).2 act.id = true :=
      activityExists_store false hobj
    refine ⟨?_, ?_, ?_⟩
    · rw [hdb1, handle_eq_announce hk, hp2]
      exact count_store_exists hex1
    · rw [hdb1]
      exact count_store_one false hobj hwf
    · intro hr1
      exfalso
      rw [handle_eq_announce hk, hp1] at hr1
      simp at hr1
  | some v =>
    by_cases he : activityExists db act.id = true
    · have hp1 := announce_dup hf he
      have hdb1 : (handle_activity db act dl).2.1 = db := by
        rw [handle_eq_announce hk, hp1]
        exact count_store_exists he
      refine ⟨?_, ?_, ?_⟩
      · rw [hdb1]
        exact hdb1
      · rw [hdb1]
        have := count_pos_of_exists he
        omega
      · intro _
        rw [hdb1, handle_eq_announce hk, hp1, hk]
        simp
    · rw [Bool.not_eq_true] at he
      have hp1 := announce_new hf he
      have hdb1 : (handle_activity db act dl).2.1
          = (store_activity
              (updateVideo db act.obj.idOf (fun w =>
                { w with
                  shareCount := w.shareCount + 1,
                  engagementScore :=
                    engagementScoreOf w.likeCount w.commentCount (w.shareCount + 1)
                      w.viewCount })) act false).2 := by
        rw [handle_eq_announce hk, hp1]
      have hfv1 : ∃ v2, findVideo (handle_activity db act dl).2.1 act.obj.idOf = some v2 := by
        rw [hdb1, findVideo_store, findVideo_updateVideo db act.obj.idOf, hf]
        · exact ⟨_, rfl⟩
        · intro w
          rfl
      obtain ⟨v2, hfv1⟩ := hfv1
      have hex1 : activityExists (handle_activity db act dl).2.1 act.id = true := by
        rw [hdb1]
        exact activityExists_store false hobj
      have hp2 := announce_dup hfv1 hex1
      refine ⟨?_, ?_, ?_⟩
      · rw [handle_eq_announce hk, hp2]
        exact count_store_exists hex1
      · rw [hdb1]
        exact count_store_one false hobj hwf
      · intro _
        rw [handle_eq_announce hk, hp2, hk]
        simp

theorem findVideo_filter_self (db : DB) (x : String) :
    findVideo { db with videos := db.videos.filter (fun w => !(w.apId == x)) } x
      = none := by
  unfold findVideo
  apply List.find?_eq_none.mpr
  intro a ha
  have := (List.mem_filter.mp ha).2
  simp at this
  simp [this]

theorem c2_delete_case (db : DB) (act : InActivity) (dl : Except String String)
    (o : APObject) (hobj : act.obj = ObjField.obj o)
    (hk : act.activityType = "Delete") (hwf : countActivities db act.id ≤ 1) :
    C2Conc db act dl := by
  unfold C2Conc
  cases hf : findVideo db act.obj.idOf with
  | none =>
    have hp1 := delete_404 hf
    have hdb1 : (handle_activity db act dl).2.1 = (store_activity db act false).2 := by
      rw [handle_eq_delete hk, hp1]
    have hfv1 : findVideo (store_activity db act false).2 act.obj.idOf = none := by
      rw [findVideo_store]
      exact hf
    have hp2 := delete_404 hfv1
    have hex1 : activityExists (store_activity db act false).2 act.id = true :=
      activityExists_store false hobj
    refine ⟨?_, ?_, ?_⟩
    · rw [hdb1, handle_eq_delete hk, hp2]
      exact count_store_exists hex1
    · rw [hdb1]
      exact count_store_one false hobj hwf
    · intro hr1
      exfalso
      rw [handle_eq_delete hk, hp1] at hr1
      simp at hr1
  | some v =>
    have hp1 := delete_found hf
    have hdb1 : (handle_activity db act dl).2.1
        = (store_activity
            { db with videos := db.videos.filter (fun w => !(w.apId == act.obj.idOf)) }
            act false).2 := by
      rw [handle_eq_delete hk, hp1]
    have hfv1 : findVideo (handle_activity db act dl).2.1 act.obj.idOf = none := by
      rw [hdb1, findVideo_store]
      exact findVideo_filter_self db act.obj.idOf
    have hex1 : activityExists (handle_activity db act dl).2.1 act.id = true := by
      rw [hdb1]
      exact activityExists_store false hobj
    have hp2 := delete_404 hfv1
    refine ⟨?_, ?_, ?_⟩
    · rw [handle_eq_delete hk, hp2]
      exact count_store_exists hex1
    · rw [hdb1]
      exact count_store_one false hobj hwf
    · intro _
      rw [handle_eq_delete hk, hp2, hk]
      simp

/-- The per-row rewrite of `process_move_activity` is idempotent. -/
theorem moveRow_idem (actor t : String) (f : FollowerRec) :
    (fun f : FollowerRec =>
      if f.followerActor == actor then { f with followerActor := t } else f)
      ((fun f : FollowerRec =>
        if f.followerActor == actor then { f with followerActor := t } else f) f)
    = (fun f : FollowerRec =>
      if f.followerActor == actor then { f with followerActor := t } else f) f := by
  by_cases hm : f.followerActor == actor
  · simp only [hm, if_true, eq_self_iff_true]
    by_cases ht : (t == actor : Bool)
    · simp [ht]
    · rw [Bool.not_eq_true] at ht
      simp [ht]
  · rw [Bool.not_eq_true] at hm
    simp [hm]

theorem c2_move_case (db : DB) (act : InActivity) (dl : Except String String)
    (o : APObject) (hobj : act.obj = ObjField.obj o)
    (hk : act.activityType = "Move") (hwf : countActivities db act.id ≤ 1) :
    C2Conc db act dl := by
  unfold C2Conc
  by_cases ht : act.target.getD "" = ""
  · have hp1 := move_no_target db act ht
    have hdb1 : (handle_activity db act dl).2.1 = (store_activity db act false).2 := by
      rw [handle_eq_move hk, hp1]
    have hp2 := move_no_target (store_activity db act false).2 act ht
    have hex1 : activityExists (store_activity db act false).2 act.id = true :=
      activityExists_store false hobj
    refine ⟨?_, ?_, ?_⟩
    · rw [hdb1, handle_eq_move hk, hp2]
      exact count_store_exists hex1
    · rw [hdb1]
      exact count_store_one false hobj hwf
    · intro hr1
      exfalso
      rw [handle_eq_move hk, hp1] at hr1
      simp at hr1
  · have hp1 := move_ok db act ht
    have hdb1 : (handle_activity db act dl).2.1
        = (store_activity
            { db with followers := db.followers.map (fun f =>
                if f.followerActor == act.actor then
                  { f with followerActor := act.target.getD "" } else f) }
            act false).2 := by
      rw [handle_eq_move hk, hp1]
    have hex1 : activityExists (handle_activity db act dl).2.1 act.id = true := by
      rw [hdb1]
      exact activityExists_store false hobj
    have hp2 := move_ok (handle_activity db act dl).2.1 act ht
    have hfol : ((handle_activity db act dl).2.1).followers.map (fun f =>
        if f.followerActor == act.actor then
          { f with followerActor := act.target.getD "" } else f)
        = ((handle_activity db act dl).2.1).followers := by
      rw [hdb1, (store_tables _ _ _).2.2]
      dsimp only
      rw [List.map_map]
      apply List.map_congr_left
      intro f _
      exact moveRow_idem act.actor (act.target.getD "") f
    have hdb2 : { (handle_activity db act dl).2.1 with
        followers := ((handle_activity db act dl).2.1).followers.map (fun f =>
          if f.followerActor == act.actor then
            { f with followerActor := act.target.getD "" } else f) }
        = (handle_activity db act dl).2.1 := by
      rw [hfol]
    refine ⟨?_, ?_, ?_⟩
    · rw [handle_eq_move hk, hp2]
      dsimp only
      rw [hdb2]
      exact count_store_exists hex1
    · rw [hdb1]
      exact count_store_one false hobj hwf
    · intro _
      rw [handle_eq_move hk, hp2, hk]
      simp

theorem findVideo_append_self (db : DB) (r : VideoRec) (x : String)
    (hf : findVideo db x = none) (hr : r.apId = x) :
    findVideo { db with videos := db.videos ++ [r] } x = some r := by
  unfold findVideo at hf ⊢
  rw [List.find?_append, hf]
  simp [List.find?, hr]

theorem c2_create_case (db : DB) (act : InActivity) (dl : Except String String)
    (o : APObject) (hobj : act.obj = ObjField.obj o)
    (hk : act.activityType = "Create") (hwf : countActivities db act.id ≤ 1) :
    C2Conc db act dl := by
  unfold C2Conc
  by_cases hTv : o.objType = "Video"
  · have hcv : ∀ d : DB, process_create_activity d act dl = process_federated_video d o dl :=
      fun d => create_video hobj hTv
    cases hf : findVideo db o.id with
    | some v =>
      have hp1 : process_create_activity db act dl
          = ({ status := 200, message := "Video already processed" }, db, false) := by
        rw [hcv, pfv_exists hf]
      have hdb1 : (handle_activity db act dl).2.1 = (store_activity db act false).2 := by
        rw [handle_eq_create hk, hp1]
      have hfv1 : findVideo (store_activity db act false).2 o.id = some v := by
        rw [findVideo_store]
        exact hf
      have hp2 : process_create_activity (store_activity db act false).2 act dl
          = ({ status := 200, message := "Video already processed" },
             (store_activity db act false).2, false) := by
        rw [hcv, pfv_exists hfv1]
      have hex1 : activityExists (store_activity db act false).2 act.id = true :=
        activityExists_store false hobj
      refine ⟨?_, ?_, ?_⟩
      · rw [hdb1, handle_eq_create hk, hp2]
        exact count_store_exists hex1
      · rw [hdb1]
        exact count_store_one false hobj hwf
      · intro _
        rw [hdb1, handle_eq_create hk, hp2, hk]
        simp
    | none =>
      by_cases hd : durationExceeds (parse_duration (o.duration.getD "")) 180 = true
      · have hp1 : process_create_activity db act dl
            = ({ status := 400, message := "Duration exceeds limit" }, db, false) := by
          rw [hcv, pfv_reject hf hd]
        have hdb1 : (handle_activity db act dl).2.1 = (store_activity db act false).2 := by
          rw [handle_eq_create hk, hp1]
        have hfv1 : findVideo (store_activity db act false).2 o.id = none := by
          rw [findVideo_store]
          exact hf
        have hp2 : process_create_activity (store_activity db act false).2 act dl
            = ({ status := 400, message := "Duration exceeds limit" },
               (store_activity db act false).2, false) := by
          rw [hcv, pfv_reject hfv1 hd]
        have hex1 : activityExists (store_activity db act false).2 act.id = true :=
          activityExists_store false hobj
        refine ⟨?_, ?_, ?_⟩
        · rw [hdb1, handle_eq_create hk, hp2]
          exact count_store_exists hex1
        · rw [hdb1]
          exact count_store_one false hobj hwf
        · intro hr1
          exfalso
          rw [handle_eq_create hk, hp1] at hr1
          simp at hr1
      · rw [Bool.not_eq_true] at hd
        cases dl with
        | error e =>
          have hp1 : process_create_activity db act (Except.error e)
              = ({ status := 500, message := "Failed to download video" }, db, true) := by
            rw [hcv, pfv_dlerr hf hd]
          have hdb1 : (handle_activity db act (Except.error e)).2.1
              = (store_activity db act false).2 := by
            rw [handle_eq_create hk, hp1]
          have hfv1 : findVideo (store_activity db act false).2 o.id = none := by
            rw [findVideo_store]
            exact hf
          have hp2 : process_create_activity (store_activity db act false).2 act
              (Except.error e)
              = ({ status := 500, message := "Failed to download video" },
                 (store_activity db act false).2, true) := by
            rw [hcv, pfv_dlerr hfv1 hd]
          have hex1 : activityExists (store_activity db act false).2 act.id = true :=
            activityExists_store false hobj
          refine ⟨?_, ?_, ?_⟩
          · rw [hdb1, handle_eq_create hk, hp2]
            exact count_store_exists hex1
          · rw [hdb1]
            exact count_store_one false hobj hwf
          · intro hr1
            exfalso
            rw [handle_eq_create hk, hp1] at hr1
            simp at hr1
        | ok p =>
          have hp1 : process_create_activity db act (Except.ok p)
              = ({ status := 202, message := "Video accepted for processing" },
                 { db with videos := db.videos ++ [newVideoRec o] }, true) := by
            rw [hcv, pfv_ok hf hd]
          have hdb1 : (handle_activity db act (Except.ok p)).2.1
              = (store_activity { db with videos := db.videos ++ [newVideoRec o] }
                  act false).2 := by
            rw [handle_eq_create hk, hp1]
          have hfv1 : findVideo (handle_activity db act (Except.ok p)).2.1 o.id
              = some (newVideoRec o) := by
            rw [hdb1, findVideo_store]
            exact findVideo_append_self db (newVideoRec o) o.id hf rfl
          have hex1 : activityExists (handle_activity db act (Except.ok p)).2.1 act.id
              = true := by
            rw [hdb1]
            exact activityExists_store false hobj
          have hp2 : process_create_activity (handle_activity db act (Except.ok p)).2.1
              act (Except.ok p)
              = ({ status := 200, message := "Video already processed" },
                 (handle_activity db act (Except.ok p)).2.1, false) := by
            rw [hcv, pfv_exists hfv1]
          refine ⟨?_, ?_, ?_⟩
          · rw [handle_eq_create hk, hp2]
            exact count_store_exists hex1
          · rw [hdb1]
            exact count_store_one false hobj hwf
          · intro _
            rw [handle_eq_create hk, hp2, hk]
            simp
  · by_cases hTn : o.objType = "Note"
    · have hcn : ∀ d : DB, process_create_activity d act dl
          = ((process_federated_comment d o).1, (process_federated_comment d o).2,
             false) :=
        fun d => create_note hobj hTn
      by_cases hirt : o.inReplyTo.getD "" = ""
      · have hp1 : process_create_activity db act dl
            = ({ status := 400, message := "Note must be in reply to a video" }, db,
               false) := by
          rw [hcn, comment_400 hirt]
        have hdb1 : (handle_activity db act dl).2.1 = (store_activity db act false).2 := by
          rw [handle_eq_create hk, hp1]
        have hp2 : process_create_activity (store_activity db act false).2 act dl
            = ({ status := 400, message := "Note must be in reply to a video" },
               (store_activity db act false).2, false) := by
          rw [hcn, comment_400 hirt]
        have hex1 : activityExists (store_activity db act false).2 act.id = true :=
          activityExists_store false hobj
        refine ⟨?_, ?_, ?_⟩
        · rw [hdb1, handle_eq_create hk, hp2]
          exact count_store_exists hex1
        · rw [hdb1]
          exact count_store_one false hobj hwf
        · intro hr1
          exfalso
          rw [handle_eq_create hk, hp1] at hr1
          simp at hr1
      · cases hfv : findVideo db (o.inReplyTo.getD "") with
        | none =>
          have hp1 : process_create_activity db act dl
              = ({ status := 404, message := "Video not found" }, db, false) := by
            rw [hcn, comment_404 hirt hfv]
          have hdb1 : (handle_activity db act dl).2.1
              = (store_activity db act false).2 := by
            rw [handle_eq_create hk, hp1]
          have hfv1 : findVideo (store_activity db act false).2 (o.inReplyTo.getD "")
              = none := by
            rw [findVideo_store]
            exact hfv
          have hp2 : process_create_activity (store_activity db act false).2 act dl
              = ({ status := 404, message := "Video not found" },
                 (store_activity db act false).2, false) := by
            rw [hcn, comment_404 hirt hfv1]
          have hex1 : activityExists (store_activity db act false).2 act.id = true :=
            activityExists_store false hobj
          refine ⟨?_, ?_, ?_⟩
          · rw [hdb1, handle_eq_create hk, hp2]
            exact count_store_exists hex1
          · rw [hdb1]
            exact count_store_one false hobj hwf
          · intro hr1
            exfalso
            rw [handle_eq_create hk, hp1] at hr1
            simp at hr1
        | some v =>
          by_cases hcdup : db.comments.any (fun c => c.apId == o.id) = true
          · have hp1 : process_create_activity db act dl
                = ({ status := 200, message := "Comment already processed" }, db,
                   false) := by
              rw [hcn, comment_dup hirt hfv hcdup]
            have hdb1 : (handle_activity db act dl).2.1
                = (store_activity db act false).2 := by
              rw [handle_eq_create hk, hp1]
            have hfv1 : findVideo (store_activity db act false).2 (o.inReplyTo.getD "")
                = some v := by
              rw [findVideo_store]
              exact hfv
            have hcd1 : ((store_activity db act false).2).comments.any
                (fun c => c.apId == o.id) = true := by
              rw [(store_tables db act false).2.1]
              exact hcdup
            have hp2 : process_create_activity (store_activity db act false).2 act dl
                = ({ status := 200, message := "Comment already processed" },
                   (store_activity db act false).2, false) := by
              rw [hcn, comment_dup hirt hfv1 hcd1]
            have hex1 : activityExists (store_activity db act false).2 act.id = true :=
              activityExists_store false hobj
            refine ⟨?_, ?_, ?_⟩
            · rw [hdb1, handle_eq_create hk, hp2]
              exact count_store_exists hex1
            · rw [hdb1]
              exact count_store_one false hobj hwf
            · intro _
              rw [hdb1, handle_eq_create hk, hp2, hk]
              simp
          · rw [Bool.not_eq_true] at hcdup
            have hp1 : process_create_activity db act dl
                = ({ status := 200, message := "Comment processed" },
                   updateVideo
                     { db with comments := db.comments ++
                        [{ apId := o.id, videoApId := o.inReplyTo.getD "" }] }
                     (o.inReplyTo.getD "")
                     (fun w => { w with commentCount := w.commentCount + 1 }),
                   false) := by
              rw [hcn, comment_new hirt hfv hcdup]
            have hdb1 : (handle_activity db act dl).2.1
                = (store_activity
                    (updateVideo
                      { db with comments := db.comments ++
                         [{ apId := o.id, videoApId := o.inReplyTo.getD "" }] }
                      (o.inReplyTo.getD "")
                      (fun w => { w with commentCount := w.commentCount + 1 }))
                    act false).2 := by
              rw [handle_eq_create hk, hp1]
            have hfv1 : ∃ v2, findVideo (handle_activity db act dl).2.1
                (o.inReplyTo.getD "") = some v2 := by
              rw [hdb1, findVideo_store, findVideo_updateVideo _ (o.inReplyTo.getD "")]
              · rw [show findVideo
                    { db with comments := db.comments ++
                       [{ apId := o.id, videoApId := o.inReplyTo.getD "" }] }
                    (o.inReplyTo.getD "") = findVideo db (o.inReplyTo.getD "") from rfl,
                  hfv]
                exact ⟨_, rfl⟩
              · intro w
                rfl
            obtain ⟨v2, hfv1⟩ := hfv1
            have hcd1 : ((handle_activity db act dl).2.1).comments.any
                (fun c => c.apId == o.id) = true := by
              rw [hdb1, (store_tables _ _ _).2.1]
              rw [show (updateVideo
                  { db with comments := db.comments ++
                     [{ apId := o.id, videoApId := o.inReplyTo.getD "" }] }
                  (o.inReplyTo.getD "")
                  (fun w => { w with commentCount := w.commentCount + 1 })).comments
                = db.comments ++
                   [{ apId := o.id, videoApId := o.inReplyTo.getD "" }] from rfl]
              simp [List.any_append]
            have hp2 : process_create_activity (handle_activity db act dl).2.1 act dl
                = ({ status := 200, message := "Comment already processed" },
                   (handle_activity db act dl).2.1, false) := by
              rw [hcn, comment_dup hirt hfv1 hcd1]
            have hex1 : activityExists (handle_activity db act dl).2.1 act.id = true := by
              rw [hdb1]
              exact activityExists_store false hobj
            refine ⟨?_, ?_, ?_⟩
            · rw [handle_eq_create hk, hp2]
              exact count_store_exists hex1
            · rw [hdb1]
              exact count_store_one false hobj hwf
            · intro _
              rw [handle_eq_create hk, hp2, hk]
              simp
    · have hp1 : process_create_activity db act dl
          = ({ status := 400, message := "Unsupported object type" }, db, false) :=
        create_other hobj hTv hTn
      have hdb1 : (handle_activity db act dl).2.1 = (store_activity db act false).2 := by
        rw [handle_eq_create hk, hp1]
      have hp2 : process_create_activity (store_activity db act false).2 act dl
          = ({ status := 400, message := "Unsupported object type" },
             (store_activity db act false).2, false) :=
        create_other hobj hTv hTn
      have hex1 : activityExists (store_activity db act false).2 act.id = true :=
        activityExists_store false hobj
      refine ⟨?_, ?_, ?_⟩
      · rw [hdb1, handle_eq_create hk, hp2]
        exact count_store_exists hex1
      · rw [hdb1]
        exact count_store_one false hobj hwf
      · intro hr1
        exfalso
        rw [handle_eq_create hk, hp1] at hr1
        simp at hr1

/-- C2 (amended): For `Create`/`Like`/`Announce`/`Delete`/`Move`
activities whose `object` field is an embedded object (a JSON dict — the
only shape `store_activity` can persist: on a bare string id its
`.get("object", {}).get(...)` raises and the audit insert is rolled back),
and a store holding at most one Activity row with the activity id:
processing the same activity twice leaves the second run with no further
side effects, exactly one stored Activity row carries the activity id,
and when the first submission succeeded (200/202) the second submission
short-circuits with 200 — except `Delete`, whose second submission
answers 404 because the record is already gone. -/
theorem c2_idempotence_amended (db : DB) (act : InActivity) (dl : Except String String)
    (o : APObject) (hobj : act.obj = ObjField.obj o)
    (hkind : act.activityType = "Create" ∨ act.activityType = "Like" ∨
      act.activityType = "Announce" ∨ act.activityType = "Delete" ∨
      act.activityType = "Move")
    (hwf : countActivities db act.id ≤ 1) :
    (handle_activity (handle_activity db act dl).2.1 act dl).2.1
        = (handle_activity db act dl).2.1
    ∧ countActivities (handle_activity db act dl).2.1 act.id = 1
    ∧ ((handle_activity db act dl).1.status = 200
        ∨ (handle_activity db act dl).1.status = 202 →
        (handle_activity (handle_activity db act dl).2.1 act dl).1.status
          = if act.activityType = "Delete" then 404 else 200) := by
  rcases hkind with hk | hk | hk | hk | hk
  · exact c2_create_case db act dl o hobj hk hwf
  · exact c2_like_case db act dl o hobj hk hwf
  · exact c2_announce_case db act dl o hobj hk hwf
  · exact c2_delete_case db act dl o hobj hk hwf
  · exact c2_move_case db act dl o hobj hk hwf

/-- Witness for **C2 (amended)**: a dict-object `Like` processed twice
against a store holding the target video. -/
theorem c2_idempotence_amended_witness :
    (handle_activity (handle_activity c2Db0 c2DictLikeAct (Except.ok "p")).2.1
        c2DictLikeAct (Except.ok "p")).2.1
      = (handle_activity c2Db0 c2DictLikeAct (Except.ok "p")).2.1
    ∧ countActivities (handle_activity c2Db0 c2DictLikeAct (Except.ok "p")).2.1
        c2DictLikeAct.id = 1
    ∧ (handle_activity (handle_activity c2Db0 c2DictLikeAct (Except.ok "p")).2.1
        c2DictLikeAct (Except.ok "p")).1.status = 200 := by
  have h := c2_idempotence_amended c2Db0 c2DictLikeAct (Except.ok "p")
    { id := "V", objType := "Video", duration := none, url := "u", inReplyTo := none }
    rfl (Or.inr (Or.inl rfl)) (by decide)
  exact ⟨h.1, h.2.1, h.2.2 (Or.inl (by decide))⟩

end TCG

